import Mathlib

/-!
Verification of the IPv4 subnet calculator (CalculadoraSubredes / Validador /
ResultadoIp).  The JavaScript source is embedded shallowly:

* JS numbers are modelled as `Int`; the JS bitwise operators (`<<`, `>>>`,
  `&`, `|`, `~`), which coerce their operands to 32-bit integers, are modelled
  by explicit `% 2^32` arithmetic (`toUint32` / `toInt32`).
* JS strings are modelled as `List Char` (`JSStr`); `split('.')`, `join('.')`,
  `repeat`, `substr`, `padStart`, `trim`, number-to-string and
  string-to-number conversions are modelled character by character.
* `Math.ceil(Math.log2 n)` is modelled by the exact ceiling base-2 logarithm
  `clog2` (proved equal to `Nat.clog 2`); for the bounded integer inputs this
  program feeds it (`n ≤ 2^24`), the double-precision computation agrees with
  the exact ceiling.

All definitions are executable and kernel-reducible (fuel-based recursion
instead of well-founded recursion), so concrete runs can be checked with
`decide`.
-/

set_option maxRecDepth 100000

/-! ## JS 32-bit integer semantics -/

/-- JS ToUint32: the value of an integer reduced to an unsigned 32-bit word
(as used by `>>> 0` and as the first step of every bitwise operator). -/
def toUint32 (n : Int) : Nat := (n % (2 ^ 32 : Int)).toNat

/-- JS ToInt32: the value of an integer reduced to a signed 32-bit word
(the result type of `<<`, `&`, `|`, `~`). -/
def toInt32 (n : Int) : Int :=
  if toUint32 n < 2 ^ 31 then (toUint32 n : Int) else (toUint32 n : Int) - 2 ^ 32

/-- JS `a << k` (signed 32-bit left shift). -/
def jsShl (a : Int) (k : Nat) : Int := toInt32 ((toUint32 a : Int) * 2 ^ (k % 32))

/-- JS `a >>> k` (unsigned 32-bit right shift; `a >>> 0` is ToUint32). -/
def jsShrU (a : Int) (k : Nat) : Int := ((toUint32 a / 2 ^ (k % 32) : Nat) : Int)

/-- JS `a & b` (bitwise and on the 32-bit words, reinterpreted as signed). -/
def jsAnd (a b : Int) : Int := toInt32 ((Nat.land (toUint32 a) (toUint32 b) : Nat) : Int)

/-- JS `a | b` (bitwise or on the 32-bit words, reinterpreted as signed). -/
def jsOr (a b : Int) : Int := toInt32 ((Nat.lor (toUint32 a) (toUint32 b) : Nat) : Int)

/-- JS `~a` (32-bit bitwise complement; equals `-ToInt32(a) - 1`). -/
def jsNot (a : Int) : Int := -(toInt32 a) - 1

/-! ## JS strings -/

/-- JS strings are modelled as lists of characters. -/
abbrev JSStr := List Char

/-- Convenience coercion from Lean string literals to the JS string model. -/
def str (s : String) : JSStr := s.data

/-- JS `s.split('.')`. -/
def splitDot : JSStr → List JSStr
  | [] => [[]]
  | c :: cs =>
    if c = '.' then [] :: splitDot cs
    else
      match splitDot cs with
      | [] => [[c]]
      | h :: t => (c :: h) :: t

/-- JS `partes.join('.')` (each element already a string). -/
def joinDot : List JSStr → JSStr
  | [] => []
  | [x] => x
  | x :: xs => x ++ '.' :: joinDot xs

/-- The character for a decimal (or binary) digit value. -/
def digitChar (n : Nat) : Char := Char.ofNat (48 + n)

/-- The numeric value of a digit character. -/
def digitVal (c : Char) : Nat := c.toNat - 48

/-- The regex character class `[0-9]` (code points 48-57). -/
def isDig (c : Char) : Bool := decide (48 ≤ c.toNat ∧ c.toNat ≤ 57)

/-- Decimal value of a digit string (big-endian fold). -/
def parseDec (l : JSStr) : Nat := l.foldl (fun a c => 10 * a + digitVal c) 0

/-- JS `Number(s)`, modelled on the strings this program feeds it: a nonempty
string of decimal digits denotes its decimal value, and `Number('') = 0`.
(`Number` of any other string is NaN; no validated code path reaches that
case, and NaN is modelled as 0, matching ToInt32(NaN) inside bitwise ops.) -/
def jsNumber (l : JSStr) : Int := if l ≠ [] ∧ l.all isDig then (parseDec l : Nat) else 0

/-- Fuel-based decimal printing (most significant digit first). -/
def natDigitsAux : Nat → Nat → JSStr
  | 0, _ => []
  | fuel + 1, n =>
    if n < 10 then [digitChar n] else natDigitsAux fuel (n / 10) ++ [digitChar (n % 10)]

/-- Decimal digit string of a natural number (JS `(n).toString()`). -/
def natDigits (n : Nat) : JSStr := natDigitsAux (n + 1) n

/-- JS number-to-string conversion for integers (as performed by `join`,
template literals and `String()`). -/
def jsNumToStr (n : Int) : JSStr :=
  if n < 0 then '-' :: natDigits n.natAbs else natDigits n.toNat

/-- Trailing `'0'` characters removed: the significant digits of a decimal
expansion. -/
def stripTrailingZeros (l : JSStr) : JSStr :=
  (l.reverse.dropWhile fun c => c == '0').reverse

/-- JS `ToString` of a nonnegative integer value, as `parseInt` receives it
when its argument is a number: positional decimal notation while the value
has at most 21 digits, exponential notation (the significant digits with a
decimal point after the first when there are several, then `'e'`, `'+'` and
the exponent, which is the digit count minus one) from `10^21` on.  The exact
decimal digits stand in for the double's shortest round-trip digits: the two
agree on every representable integer below `2^53`, and from `10^21` on both
place the same leading digit before a `'.'` or `'e'`, which is all `parseInt`
reads of them. -/
def numberToStringNat (m : Nat) : JSStr :=
  let dgs := natDigits m
  if dgs.length ≤ 21 then dgs
  else
    (match stripTrailingZeros dgs with
      | [] => []
      | [d] => [d]
      | d :: resto => d :: '.' :: resto) ++ 'e' :: '+' :: natDigits (dgs.length - 1)

/-- JS `ToString` of an integer value: a `'-'` sign followed by the expansion
of the magnitude. -/
def numberToString (n : Int) : JSStr :=
  if n < 0 then '-' :: numberToStringNat n.natAbs else numberToStringNat n.toNat

/-- Fuel-based binary printing. -/
def toBinAux : Nat → Nat → JSStr
  | 0, _ => []
  | fuel + 1, n =>
    if n < 2 then [digitChar n] else toBinAux fuel (n / 2) ++ [digitChar (n % 2)]

/-- JS `(n).toString(2)` for a nonnegative number. -/
def toBin (n : Nat) : JSStr := toBinAux (n + 1) n

/-- JS `s.padStart(8, '0')`. -/
def padStart8 (l : JSStr) : JSStr := List.replicate (8 - l.length) '0' ++ l

/-- JS `parseInt(s, 2)` on a string of binary digits. -/
def parseBin (l : JSStr) : Nat := l.foldl (fun a c => 2 * a + digitVal c) 0

/-- JS `c.repeat(n)` for a single character `c`. -/
def repeatChar (c : Char) (n : Nat) : JSStr := List.replicate n c

/-- JS `s.substr(inicio, longitud)`. -/
def substrJS (l : JSStr) (inicio longitud : Nat) : JSStr := (l.drop inicio).take longitud

/-- JS `s.trim()`. -/
def jsTrim (l : JSStr) : JSStr :=
  ((l.dropWhile Char.isWhitespace).reverse.dropWhile Char.isWhitespace).reverse

/-- JS `parseInt(s)` with the default radix 10: skip leading whitespace, read
an optional sign and then the longest prefix of decimal digits; `none` models
NaN. -/
def parseIntJS (l : JSStr) : Option Int :=
  match l.dropWhile Char.isWhitespace with
  | '-' :: resto =>
    let ds := resto.takeWhile isDig
    if ds = [] then none else some (-(parseDec ds : Int))
  | '+' :: resto =>
    let ds := resto.takeWhile isDig
    if ds = [] then none else some ((parseDec ds : Nat) : Int)
  | resto =>
    let ds := resto.takeWhile isDig
    if ds = [] then none else some ((parseDec ds : Nat) : Int)

/-- Fuel-based ceiling base-2 logarithm. -/
def clog2Aux : Nat → Nat → Nat
  | 0, _ => 0
  | fuel + 1, n => if n ≤ 1 then 0 else clog2Aux fuel ((n + 1) / 2) + 1

/-- `Math.ceil(Math.log2 n)` for a positive integer `n`: the least `k` with
`n ≤ 2 ^ k` (proved equal to `Nat.clog 2 n` below).  The program only calls
this with `2 ≤ n ≤ 2^24`, where the double-precision `Math.log2` is accurate
enough that its ceiling is the exact ceiling. -/
def clog2 (n : Nat) : Nat := clog2Aux n n

/-! ## CalculadoraSubredes (calculadora-subredes module) -/

/-- `ipANumero(ip)`: `ip.split('.').map(Number)`, then
`(o[0] << 24) + (o[1] << 16) + (o[2] << 8) + o[3]`.  The JS result is a
*signed* 32-bit value (negative when the first octet is ≥ 128).  Out-of-range
indexing (fewer than four octets) yields `undefined`/NaN in JS; the model
returns the octet 0 there, which agrees with JS wherever a bitwise operator
consumes the result and is unreachable from validated input. -/
def ipANumero (ip : JSStr) : Int :=
  let octetos := (splitDot ip).map jsNumber
  jsShl (octetos.getD 0 0) 24 + jsShl (octetos.getD 1 0) 16 + jsShl (octetos.getD 2 0) 8 +
    octetos.getD 3 0

/-- `numeroAIp(numero)`: `[(n >>> 24) & 255, (n >>> 16) & 255, (n >>> 8) & 255,
n & 255].join('.')`. -/
def numeroAIp (numero : Int) : JSStr :=
  joinDot ([jsAnd (jsShrU numero 24) 255, jsAnd (jsShrU numero 16) 255,
    jsAnd (jsShrU numero 8) 255, jsAnd numero 255].map jsNumToStr)

/-- `calcularMascaraDesdeHosts(hosts)`: builds the binary string
`'1'.repeat(32 - bitsHost) + '0'.repeat(bitsHost)` with
`bitsHost = Math.ceil(Math.log2(hosts + 2))`, splits it into four 8-character
substrings, parses each with `parseInt(_, 2)` and joins with dots. -/
def calcularMascaraDesdeHosts (hosts : Nat) : JSStr :=
  let bitsHost := clog2 (hosts + 2)
  let bitsRed := 32 - bitsHost
  let mascaraBinaria := repeatChar '1' bitsRed ++ repeatChar '0' bitsHost
  let octetos := (List.range 4).map fun i => parseBin (substrJS mascaraBinaria (i * 8) 8)
  joinDot (octetos.map fun o => jsNumToStr (o : Nat))

/-- `calcularMascaraDesdeHosts` with the error path of `'1'.repeat(bitsRed)`
made explicit: in the source `bitsRed = 32 - bitsHost` is a plain JS number,
negative as soon as `bitsHost = Math.ceil(Math.log2(hosts + 2))` exceeds 32
(that is, for `hosts > 4294967294`), and `String.prototype.repeat` of a
negative count throws `RangeError: Invalid count value`.  In the non-throwing
branch `32 - bitsHost` is nonnegative, so it coincides with the truncated
subtraction of `calcularMascaraDesdeHosts`, which transcribes the rest of the
function. -/
def calcularMascaraDesdeHostsChecked (hosts : Nat) : Except JSStr JSStr :=
  let bitsHost := clog2 (hosts + 2)
  if (32 : Int) - (bitsHost : Int) < 0 then Except.error (str "Invalid count value")
  else Except.ok (calcularMascaraDesdeHosts hosts)

/-- The 32-character binary expansion a dotted mask string is given in the
source (computed inline, identically, in `calcularHostsDesdeMascara`,
`obtenerInfoAdicional`, `esMascaraSubredValida` and `_calcularCIDR`):
`mascara.split('.').map(Number).map(o => o.toString(2).padStart(8, '0')).join('')`. -/
def maskBinaria (mascara : JSStr) : JSStr :=
  (((splitDot mascara).map jsNumber).map fun o => padStart8 (toBin o.toNat)).flatten

/-- `calcularHostsDesdeMascara(mascara)`: `2 ^ (number of '0' bits) - 2`. -/
def calcularHostsDesdeMascara (mascara : JSStr) : Int :=
  let bitsHost := ((maskBinaria mascara).filter fun c => c == '0').length
  (2 : Int) ^ bitsHost - 2

/-- `calcularIpRed(ip, mascara)`: `numeroAIp(ipANumero(ip) & ipANumero(mascara))`. -/
def calcularIpRed (ip mascara : JSStr) : JSStr :=
  numeroAIp (jsAnd (ipANumero ip) (ipANumero mascara))

/-- `calcularIpBroadcast(ipRed, mascara)`: `numeroAIp(red | (~mascara >>> 0))`. -/
def calcularIpBroadcast (ipRed mascara : JSStr) : JSStr :=
  numeroAIp (jsOr (ipANumero ipRed) (jsShrU (jsNot (ipANumero mascara)) 0))

/-- `calcularPrimerHost(ipRed)`: `numeroAIp(red + 1)`. -/
def calcularPrimerHost (ipRed : JSStr) : JSStr := numeroAIp (ipANumero ipRed + 1)

/-- `calcularUltimoHost(ipBroadcast)`: `numeroAIp(broadcast - 1)`. -/
def calcularUltimoHost (ipBroadcast : JSStr) : JSStr := numeroAIp (ipANumero ipBroadcast - 1)

/-- `calcularGateway(ipRed)`: the first host. -/
def calcularGateway (ipRed : JSStr) : JSStr := calcularPrimerHost ipRed

/-- Record returned by `obtenerInfoAdicional`. -/
structure InfoAdicional where
  notacionCIDR : Nat
  bitsRed : Nat
  bitsHost : Nat
  numeroSubredes : Rat
  mascaraBinaria : JSStr
deriving DecidableEq

/-- `obtenerInfoAdicional(mascara)`: counts the '1' bits of the binary
expansion.  `numeroSubredes = Math.pow(2, bitsRed - 8)` is a JS float
(fractional when `bitsRed < 8`), modelled exactly as a rational.
`bitsHost = 32 - bitsRed` uses truncated subtraction; masks whose octets
exceed 255 (never produced by validated input) are not modelled. -/
def obtenerInfoAdicional (mascara : JSStr) : InfoAdicional :=
  let mb := maskBinaria mascara
  let bitsRed := (mb.filter fun c => c == '1').length
  { notacionCIDR := bitsRed
    bitsRed := bitsRed
    bitsHost := 32 - bitsRed
    numeroSubredes := (2 : Rat) ^ ((bitsRed : Int) - 8)
    mascaraBinaria := mb }

/-- The `ResultadoIp` record (resultado-ip.js). -/
structure ResultadoIp where
  networkIP : JSStr
  subnetMask : JSStr
  broadcastIP : JSStr
  firstHostIP : JSStr
  lastHostIP : JSStr
  gatewayIP : JSStr
  totalHosts : Int
deriving DecidableEq

/-- `ResultadoIp._calcularCIDR` (resultado-ip.js): the number of '1' bits of
the mask's 32-character binary expansion; also the `bitsRed` computation of
`obtenerInfoAdicional`. -/
def calcularCIDR (mascara : JSStr) : Nat :=
  ((maskBinaria mascara).filter fun c => c == '1').length

/-- `ResultadoIp.esValido()`: all string fields truthy (nonempty) and
`totalHosts >= 0`. -/
def ResultadoIp.esValido (r : ResultadoIp) : Bool :=
  !r.networkIP.isEmpty && !r.subnetMask.isEmpty && !r.broadcastIP.isEmpty &&
    !r.firstHostIP.isEmpty && !r.lastHostIP.isEmpty && !r.gatewayIP.isEmpty &&
    decide (0 ≤ r.totalHosts)

/-- `calcularSubredCompleta(ip, mascara)`: derives every field of the result
record. -/
def calcularSubredCompleta (ip mascara : JSStr) : ResultadoIp :=
  let ipRed := calcularIpRed ip mascara
  let ipBroadcast := calcularIpBroadcast ipRed mascara
  let primerHost := calcularPrimerHost ipRed
  let ultimoHost := calcularUltimoHost ipBroadcast
  let gateway := calcularGateway ipRed
  let totalHosts := calcularHostsDesdeMascara mascara
  { networkIP := ipRed
    subnetMask := mascara
    broadcastIP := ipBroadcast
    firstHostIP := primerHost
    lastHostIP := ultimoHost
    gatewayIP := gateway
    totalHosts := totalHosts }

/-- `calcularSubredPorHosts(ip, hosts)`: mask from the host count, then the
complete computation. -/
def calcularSubredPorHosts (ip : JSStr) (hosts : Nat) : ResultadoIp :=
  calcularSubredCompleta ip (calcularMascaraDesdeHosts hosts)

/-- `dividirEnSubredes(ip, mascara, numeroSubredes)`: splits the network into
`numeroSubredes` equal blocks, throwing (modelled as `Except.error`) when the
new prefix would exceed 30 bits. -/
def dividirEnSubredes (ip mascara : JSStr) (numeroSubredes : Nat) :
    Except JSStr (List ResultadoIp) :=
  let bitsAdicionales := clog2 numeroSubredes
  let infoActual := obtenerInfoAdicional mascara
  let nuevaBitsRed := infoActual.bitsRed + bitsAdicionales
  if nuevaBitsRed > 30 then
    Except.error (str "No es posible crear tantas subredes con hosts válidos")
  else
    let nuevaMascaraBinaria := repeatChar '1' nuevaBitsRed ++ repeatChar '0' (32 - nuevaBitsRed)
    let octetos := (List.range 4).map fun i => parseBin (substrJS nuevaMascaraBinaria (i * 8) 8)
    let mascaraSubred := joinDot (octetos.map fun o => jsNumToStr (o : Nat))
    let tamSubred : Int := 2 ^ (32 - nuevaBitsRed)
    let redPrincipal := ipANumero (calcularIpRed ip mascara)
    Except.ok ((List.range numeroSubredes).map fun (i : Nat) =>
      calcularSubredCompleta (numeroAIp (redPrincipal + (i : Int) * tamSubred)) mascaraSubred)

/-- `ipEstaEnSubred(ip, ipRed, mascara)`: `(ipNum & mascaraNum) === redNum`. -/
def ipEstaEnSubred (ip ipRed mascara : JSStr) : Bool :=
  decide (jsAnd (ipANumero ip) (ipANumero mascara) = ipANumero ipRed)

/-- One entry of the `optimizarSubredes` result. -/
structure SubredOptimizada where
  indice : Nat
  hostsRequeridos : Nat
  hostsDisponibles : Int
  mascara : JSStr
  notacionCIDR : Nat
  eficiencia : Rat
deriving DecidableEq

/-- The `forEach` body of `optimizarSubredes`, one entry per (index,
requirement) pair, in traversal order; a `RangeError` thrown by
`calcularMascaraDesdeHosts` (see `calcularMascaraDesdeHostsChecked`)
propagates out, aborting the traversal with no list. -/
def optimizarAux : List (Nat × Nat) → Except JSStr (List SubredOptimizada)
  | [] => Except.ok []
  | par :: resto =>
    match calcularMascaraDesdeHostsChecked par.2 with
    | Except.error e => Except.error e
    | Except.ok mascara =>
      match optimizarAux resto with
      | Except.error e => Except.error e
      | Except.ok subredes =>
        Except.ok
          ({ indice := par.1
             hostsRequeridos := par.2
             hostsDisponibles := calcularHostsDesdeMascara mascara
             mascara := mascara
             notacionCIDR := (obtenerInfoAdicional mascara).notacionCIDR
             eficiencia := (par.2 : Rat) / (calcularHostsDesdeMascara mascara : Rat) * 100 }
            :: subredes)

/-- `optimizarSubredes(listaHosts)`: sorts a copy of the list descending
(`[...l].sort((a, b) => b - a)`; JS `sort` is stable, and on plain numbers any
correct sort yields the same list) and reports, per requirement, the mask it
needs and the efficiency `hosts / hostsDisponibles * 100` (a JS float shown
with `toFixed(2) + '%'`; modelled as the exact rational).  A requirement
above 4294967294 makes `calcularMascaraDesdeHosts` throw inside the
`forEach`, so the call produces no list (`Except.error`). -/
def optimizarSubredes (listaHosts : List Nat) : Except JSStr (List SubredOptimizada) :=
  let hostsOrdenados := List.insertionSort (fun a b => a ≥ b) listaHosts
  optimizarAux hostsOrdenados.enum

/-! ## Validador (validador.js) -/

/-- One alternative of the IPv4 regex:
`25[0-5] | 2[0-4][0-9] | [01]?[0-9][0-9]?` (character classes written as code
point ranges; `'0'` = 48, `'2'` = 50, `'4'` = 52, `'5'` = 53). -/
def matchesOctet (p : JSStr) : Bool :=
  match p with
  | [a] => isDig a
  | [a, b] => isDig a && isDig b
  | [a, b, c] =>
    (decide (a.toNat = 50) && decide (b.toNat = 53) &&
        decide (48 ≤ c.toNat ∧ c.toNat ≤ 53)) ||
      (decide (a.toNat = 50) && decide (48 ≤ b.toNat ∧ b.toNat ≤ 52) && isDig c) ||
      (decide (a.toNat = 48 ∨ a.toNat = 49) && isDig b && isDig c)
  | _ => false

/-- `Validador.esDireccionIPValida(ip)`: the empty string is falsy; the
anchored regex `^(G)\.(G)\.(G)\.(G)$` (with `G` the octet group, which cannot
contain a dot) holds exactly when the string splits on dots into four parts
each matching `G`; then the octet *values* must not be all 0 nor all 255. -/
def esDireccionIPValida (ip : JSStr) : Bool :=
  if ip = [] then false
  else
    let partes := splitDot ip
    if ¬ (partes.length = 4 ∧ partes.all matchesOctet) then false
    else
      let octetos := partes.map jsNumber
      if octetos.all fun o => o == 0 then false
      else if octetos.all fun o => o == 255 then false
      else true

/-- The regex `^1*0*$` applied to an all-`{0,1}` string: every character is
`'0'` once the leading `'1'` run is dropped. -/
def allZerosStr (l : JSStr) : Bool := l.all fun c => c == '0'

/-- All characters are `'1'`. -/
def allOnesStr (l : JSStr) : Bool := l.all fun c => c == '1'

/-- Test of the mask pattern `^1*0*$`. -/
def onesThenZeros (l : JSStr) : Bool := allZerosStr (l.dropWhile fun c => c == '1')

/-- `Validador.esMascaraSubredValida(mascara)`: a valid IPv4 string whose
32-character binary expansion matches `^1*0*$`. -/
def esMascaraSubredValida (mascara : JSStr) : Bool :=
  if ¬ esDireccionIPValida mascara then false
  else onesThenZeros (maskBinaria mascara)

/-- `Validador.esNumeroHostsValido(hosts)`: `parseInt(hosts)` first converts
a number argument to a string (`numberToString`), so integer counts of
magnitude `10^21` or more are read back from exponential notation and lose
everything after their leading digits; the re-parsed value is then required
to satisfy `1 <= numHosts <= 16777214`, with NaN (`none`) rejected. -/
def esNumeroHostsValido (hosts : Int) : Bool :=
  match parseIntJS (numberToString hosts) with
  | none => false
  | some numHosts =>
    if numHosts < 1 then false
    else if numHosts > 16777214 then false
    else true

/-- `Validador.obtenerMensajeError(tipo, valor)`.  In the `'hosts'` branch the
source re-parses the value with `parseInt`; NaN comparisons are false, landing
on the final message. -/
def obtenerMensajeError (tipo valor : JSStr) : JSStr :=
  if tipo = str "ip" then
    if valor = [] ∨ jsTrim valor = [] then str "Por favor, ingresa una dirección IP."
    else if valor = str "0.0.0.0" then
      str "La dirección 0.0.0.0 no es válida para cálculos de subred."
    else if valor = str "255.255.255.255" then
      str "La dirección 255.255.255.255 es una dirección de broadcast global."
    else str "Por favor, ingresa una dirección IP válida (ej: 192.168.1.100)."
  else if tipo = str "mascara" then
    if valor = [] ∨ jsTrim valor = [] then str "Por favor, ingresa una máscara de subred."
    else str "Por favor, ingresa una máscara de subred válida (ej: 255.255.255.0)."
  else if tipo = str "hosts" then
    if valor = [] ∨ jsTrim valor = [] then str "Por favor, ingresa el número de hosts."
    else
      match parseIntJS valor with
      | none => str "Por favor, ingresa un número válido de hosts (mínimo 1)."
      | some n =>
        if n < 1 then str "El número de hosts debe ser mayor a 0."
        else if n > 16777214 then
          str "El número de hosts es demasiado grande (máximo: 16,777,214)."
        else str "Por favor, ingresa un número válido de hosts (mínimo 1)."
  else str "Error en la validación de datos."

/-- Outcome record of `validarEntradaCompleta`. -/
structure ValidacionResultado where
  esValido : Bool
  mensaje : Option JSStr
deriving DecidableEq

/-- `Validador.validarEntradaCompleta(ip, tipoEntrada, mascara, numeroHosts)`:
the IP is validated first; then, depending on the entry mode, the host count
or the mask.  `numeroHosts` is the integer the UI passes
(`parseInt(field) || 0`); for the error message it is rendered back to a
string.  That rendering is generous to the source: there
`obtenerMensajeError('hosts', numeroHosts)` receives the raw number, whose
`valor.trim()` throws `TypeError` for every nonzero count and whose
falsiness at 0 selects the empty-input message — a divergence confined to
the valid-IP/invalid-hosts branch, which no theorem below reaches. -/
def validarEntradaCompleta (ip tipoEntrada mascara : JSStr) (numeroHosts : Int) :
    ValidacionResultado :=
  if ¬ esDireccionIPValida ip then
    { esValido := false, mensaje := some (obtenerMensajeError (str "ip") ip) }
  else if tipoEntrada = str "hosts" then
    if ¬ esNumeroHostsValido numeroHosts then
      { esValido := false
        mensaje := some (obtenerMensajeError (str "hosts") (jsNumToStr numeroHosts)) }
    else { esValido := true, mensaje := none }
  else if tipoEntrada = str "mascara" then
    if ¬ esMascaraSubredValida mascara then
      { esValido := false, mensaje := some (obtenerMensajeError (str "mascara") mascara) }
    else { esValido := true, mensaje := none }
  else { esValido := true, mensaje := none }

/-- Specification-side predicate: a well-formed 4-octet dotted decimal string
(four dot-separated nonempty digit groups, each with value at most 255) -- the
hypothesis under which claim C8 quantifies `ipEstaEnSubred`. -/
def esIpBienFormada (s : JSStr) : Bool :=
  (splitDot s).length == 4 &&
    (splitDot s).all fun p => !p.isEmpty && p.all isDig && decide (parseDec p ≤ 255)

/-- Specification-side predicate for claim C2: a digit group written without
leading zeros (the canonical decimal numeral of its value). -/
def sinCerosIniciales (l : JSStr) : Bool := l.head? ≠ some '0' || l.length == 1

/-! ## Numeral forms of the powers of two used by the 32-bit model -/

theorem int_two_pow_32 : (2 : Int) ^ 32 = 4294967296 := by norm_num

theorem nat_two_pow_32 : (2 : Nat) ^ 32 = 4294967296 := by norm_num

theorem int_two_pow_31 : (2 : Int) ^ 31 = 2147483648 := by norm_num

/-! ## Facts about `toUint32` and `toInt32` -/

theorem toUint32_coe (n : Int) : (toUint32 n : Int) = n % 2 ^ 32 := by
  unfold toUint32
  exact Int.toNat_of_nonneg (Int.emod_nonneg n (by norm_num))

theorem toUint32_lt (n : Int) : toUint32 n < 2 ^ 32 := by
  have h1 := toUint32_coe n
  have h2 : n % 2 ^ 32 < 2 ^ 32 := Int.emod_lt_of_pos n (by norm_num)
  rw [int_two_pow_32] at h1 h2
  rw [nat_two_pow_32]
  omega

theorem toUint32_ofNat (m : Nat) (h : m < 2 ^ 32) : toUint32 (m : Int) = m := by
  have h1 := toUint32_coe (m : Int)
  rw [int_two_pow_32] at h1
  rw [nat_two_pow_32] at h
  omega

theorem toInt32_or (n : Int) :
    toInt32 n = (toUint32 n : Int) ∨ toInt32 n = (toUint32 n : Int) - 2 ^ 32 := by
  unfold toInt32
  split
  · exact Or.inl rfl
  · exact Or.inr rfl

theorem toUint32_toInt32 (n : Int) : toUint32 (toInt32 n) = toUint32 n := by
  have hu := toUint32_lt n
  rw [nat_two_pow_32] at hu
  rcases toInt32_or n with h | h <;> rw [h]
  · have h1 := toUint32_coe ((toUint32 n : Nat) : Int)
    rw [int_two_pow_32] at h1
    omega
  · have h1 := toUint32_coe ((toUint32 n : Int) - 2 ^ 32)
    rw [int_two_pow_32] at h1 ⊢
    omega

theorem toUint32_jsNot (n : Int) : toUint32 (jsNot n) = 4294967295 - toUint32 n := by
  have hu := toUint32_lt n
  rw [nat_two_pow_32] at hu
  unfold jsNot
  rcases toInt32_or n with h | h <;> rw [h]
  · have h1 := toUint32_coe (-((toUint32 n : Nat) : Int) - 1)
    rw [int_two_pow_32] at h1
    omega
  · have h1 := toUint32_coe (-((toUint32 n : Int) - 2 ^ 32) - 1)
    rw [int_two_pow_32] at h1 ⊢
    omega

theorem toUint32_jsAnd (a b : Int) :
    toUint32 (jsAnd a b) = Nat.land (toUint32 a) (toUint32 b) := by
  unfold jsAnd
  rw [toUint32_toInt32]
  exact toUint32_ofNat _ (Nat.and_lt_two_pow _ (toUint32_lt b))

theorem toUint32_jsOr (a b : Int) :
    toUint32 (jsOr a b) = Nat.lor (toUint32 a) (toUint32 b) := by
  unfold jsOr
  rw [toUint32_toInt32]
  exact toUint32_ofNat _ (Nat.or_lt_two_pow (toUint32_lt a) (toUint32_lt b))

theorem jsShrU_zero (n : Int) : jsShrU n 0 = ((toUint32 n : Nat) : Int) := by
  unfold jsShrU
  norm_num

/-! ## Digit characters -/

theorem digitChar_toNat : ∀ n : Nat, n < 10 → (digitChar n).toNat = 48 + n := by decide

theorem isDig_digitChar : ∀ n : Nat, n < 10 → isDig (digitChar n) = true := by decide

theorem digitVal_digitChar : ∀ n : Nat, n < 10 → digitVal (digitChar n) = n := by decide

theorem digitChar_ne_dot : ∀ n : Nat, n < 10 → digitChar n ≠ '.' := by decide

theorem isDig_iff (c : Char) : isDig c = true ↔ 48 ≤ c.toNat ∧ c.toNat ≤ 57 := by
  simp [isDig]

theorem digitVal_lt_ten (c : Char) (h : isDig c = true) : digitVal c < 10 := by
  rw [isDig_iff] at h
  unfold digitVal
  omega

theorem isDig_ne_dot (c : Char) (h : isDig c = true) : c ≠ '.' := by
  rintro rfl
  exact absurd h (by decide)

theorem digitChar_digitVal (c : Char) (h : isDig c = true) : digitChar (digitVal c) = c := by
  rw [isDig_iff] at h
  unfold digitChar digitVal
  have h2 : 48 + (c.toNat - 48) = c.toNat := by omega
  rw [h2, Char.ofNat_toNat]

/-! ## Decimal printing and parsing round-trips -/

theorem natDigitsAux_congr : ∀ f1 f2 n : Nat, n < f1 → n < f2 →
    natDigitsAux f1 n = natDigitsAux f2 n := by
  intro f1
  induction f1 with
  | zero => intro f2 n h1 h2; omega
  | succ f ih =>
    intro f2 n h1 h2
    cases f2 with
    | zero => omega
    | succ g =>
      simp only [natDigitsAux]
      by_cases hn : n < 10
      · simp [hn]
      · rw [if_neg hn, if_neg hn, ih g (n / 10) (by omega) (by omega)]

theorem natDigits_eq (n : Nat) :
    natDigits n = if n < 10 then [digitChar n] else natDigits (n / 10) ++ [digitChar (n % 10)] := by
  show natDigitsAux (n + 1) n = _
  simp only [natDigitsAux]
  by_cases h : n < 10
  · simp [h]
  · rw [if_neg h, if_neg h, natDigitsAux_congr n (n / 10 + 1) (n / 10) (by omega) (by omega)]
    rfl

theorem parseDec_append_singleton (l : JSStr) (c : Char) :
    parseDec (l ++ [c]) = 10 * parseDec l + digitVal c := by
  simp [parseDec, List.foldl_append]

theorem parseDec_natDigits (n : Nat) : parseDec (natDigits n) = n := by
  induction n using Nat.strong_induction_on with
  | _ n ih =>
    rw [natDigits_eq]
    by_cases h : n < 10
    · rw [if_pos h]
      show 10 * 0 + digitVal (digitChar n) = n
      rw [digitVal_digitChar n h]
      omega
    · rw [if_neg h, parseDec_append_singleton, ih (n / 10) (by omega),
        digitVal_digitChar (n % 10) (by omega)]
      omega

theorem natDigits_all_isDig (n : Nat) : (natDigits n).all isDig = true := by
  induction n using Nat.strong_induction_on with
  | _ n ih =>
    rw [natDigits_eq]
    by_cases h : n < 10
    · simp [h, isDig_digitChar n h]
    · simp only [if_neg h, List.all_append]
      rw [ih (n / 10) (by omega)]
      simp [isDig_digitChar (n % 10) (by omega)]

theorem natDigits_ne_nil (n : Nat) : natDigits n ≠ [] := by
  rw [natDigits_eq]
  by_cases h : n < 10
  · simp [h]
  · simp [h]

theorem natDigits_dotfree (n : Nat) : ∀ c ∈ natDigits n, c ≠ '.' := by
  intro c hc
  have h := natDigits_all_isDig n
  rw [List.all_eq_true] at h
  exact isDig_ne_dot c (h c hc)

theorem parseDec_foldl_ge (l : JSStr) :
    ∀ a : Nat, a ≤ l.foldl (fun x c => 10 * x + digitVal c) a := by
  induction l with
  | nil => intro a; simp
  | cons c l ih =>
    intro a
    simp only [List.foldl_cons]
    have h := ih (10 * a + digitVal c)
    omega

theorem parseDec_pos (d : Char) (l : JSStr) (hd : isDig d = true) (h0 : d ≠ '0') :
    1 ≤ parseDec (d :: l) := by
  have hv : 1 ≤ digitVal d := by
    rw [isDig_iff] at hd
    unfold digitVal
    by_cases h48 : d.toNat = 48
    · exact absurd (by rw [← Char.ofNat_toNat d, h48]) h0
    · omega
  have h := parseDec_foldl_ge l (10 * 0 + digitVal d)
  show 1 ≤ List.foldl _ (10 * 0 + digitVal d) l
  omega

theorem natDigits_parseDec : ∀ l : JSStr, l ≠ [] → l.all isDig = true →
    sinCerosIniciales l = true → natDigits (parseDec l) = l := by
  intro l
  induction l using List.reverseRecOn with
  | nil => intro h; exact absurd rfl h
  | append_singleton l c ih =>
    intro _ hdig hsc
    simp only [List.all_append, Bool.and_eq_true, List.all_cons, List.all_nil,
      Bool.and_true] at hdig
    obtain ⟨hdigl, hdigc⟩ := hdig
    cases l with
    | nil =>
      have hv := digitVal_lt_ten c hdigc
      show natDigits (10 * 0 + digitVal c) = [c]
      rw [natDigits_eq]
      simp only [Nat.mul_zero, Nat.zero_add]
      rw [if_pos (by omega : digitVal c < 10), digitChar_digitVal c hdigc]
    | cons d l' =>
      have hd0 : d ≠ '0' := by
        intro hEq
        subst hEq
        unfold sinCerosIniciales at hsc
        simp at hsc
      have hdigd : isDig d = true := by
        simp only [List.all_cons, Bool.and_eq_true] at hdigl
        exact hdigl.1
      have hpos : 1 ≤ parseDec (d :: l') := parseDec_pos d l' hdigd hd0
      have hvc := digitVal_lt_ten c hdigc
      rw [parseDec_append_singleton, natDigits_eq]
      rw [if_neg (by omega)]
      have hdiv : (10 * parseDec (d :: l') + digitVal c) / 10 = parseDec (d :: l') := by omega
      have hmod : (10 * parseDec (d :: l') + digitVal c) % 10 = digitVal c := by omega
      rw [hdiv, hmod, digitChar_digitVal c hdigc,
        ih (by simp) hdigl (by simp [sinCerosIniciales, hd0])]

/-! ## Splitting and joining on dots -/

theorem splitDot_ne_nil (l : JSStr) : splitDot l ≠ [] := by
  cases l with
  | nil => simp [splitDot]
  | cons c cs =>
    simp only [splitDot]
    by_cases h : c = '.'
    · simp [h]
    · rw [if_neg h]
      cases splitDot cs <;> simp

theorem splitDot_append_dotfree (a : JSStr) (ha : ∀ c ∈ a, c ≠ '.') (r : JSStr) :
    splitDot (a ++ r) = (a ++ (splitDot r).headI) :: (splitDot r).tail := by
  induction a with
  | nil =>
    simp only [List.nil_append]
    have h := splitDot_ne_nil r
    cases hr : splitDot r with
    | nil => exact absurd hr h
    | cons x xs => simp [hr]
  | cons c a ih =>
    have hc : c ≠ '.' := ha c (List.mem_cons_self c a)
    have ha' : ∀ x ∈ a, x ≠ '.' := fun x hx => ha x (List.mem_cons_of_mem c hx)
    show splitDot (c :: (a ++ r)) = _
    simp only [splitDot, if_neg hc]
    rw [ih ha']
    simp

theorem splitDot_dotfree (a : JSStr) (ha : ∀ c ∈ a, c ≠ '.') : splitDot a = [a] := by
  have h := splitDot_append_dotfree a ha []
  simpa [splitDot] using h

theorem splitDot_append_dot (a : JSStr) (ha : ∀ c ∈ a, c ≠ '.') (r : JSStr) :
    splitDot (a ++ '.' :: r) = a :: splitDot r := by
  rw [splitDot_append_dotfree a ha ('.' :: r)]
  have h : splitDot ('.' :: r) = [] :: splitDot r := by simp [splitDot]
  rw [h]
  simp

theorem joinDot_cons₂ (x y : JSStr) (ys : List JSStr) :
    joinDot (x :: y :: ys) = x ++ '.' :: joinDot (y :: ys) := rfl

theorem joinDot_splitDot (l : JSStr) : joinDot (splitDot l) = l := by
  induction l with
  | nil => rfl
  | cons c cs ih =>
    by_cases h : c = '.'
    · subst h
      have e : splitDot ('.' :: cs) = [] :: splitDot cs := by simp [splitDot]
      rw [e]
      have hne := splitDot_ne_nil cs
      cases hsp : splitDot cs with
      | nil => exact absurd hsp hne
      | cons y ys =>
        rw [hsp] at ih
        rw [joinDot_cons₂]
        simp [ih]
    · have hne := splitDot_ne_nil cs
      cases hsp : splitDot cs with
      | nil => exact absurd hsp hne
      | cons y ys =>
        have e : splitDot (c :: cs) = (c :: y) :: ys := by
          simp only [splitDot, if_neg h, hsp]
        rw [e]
        rw [hsp] at ih
        cases ys with
        | nil => show c :: y = c :: cs; rw [show joinDot [y] = y from rfl] at ih; rw [ih]
        | cons z zs =>
          rw [joinDot_cons₂] at ih
          rw [joinDot_cons₂, List.cons_append, ih]

theorem splitDot_joinDot4 (p0 p1 p2 p3 : JSStr) (h0 : ∀ c ∈ p0, c ≠ '.')
    (h1 : ∀ c ∈ p1, c ≠ '.') (h2 : ∀ c ∈ p2, c ≠ '.') (h3 : ∀ c ∈ p3, c ≠ '.') :
    splitDot (joinDot [p0, p1, p2, p3]) = [p0, p1, p2, p3] := by
  have e : joinDot [p0, p1, p2, p3] = p0 ++ '.' :: (p1 ++ '.' :: (p2 ++ '.' :: p3)) := rfl
  rw [e, splitDot_append_dot p0 h0, splitDot_append_dot p1 h1, splitDot_append_dot p2 h2,
    splitDot_dotfree p3 h3]

/-! ## Packing four octets and extracting the four bytes -/

theorem toUint32_of_small (x : Int) (h0 : 0 ≤ x) (h1 : x < 2 ^ 32) : (toUint32 x : Int) = x := by
  rw [toUint32_coe, Int.emod_eq_of_lt h0 h1]

theorem toInt32_eq_ite (x : Int) :
    toInt32 x = if toUint32 x < 2 ^ 31 then (toUint32 x : Int) else (toUint32 x : Int) - 2 ^ 32 :=
  rfl

theorem toInt32_ofNat_small (m : Nat) (h : m < 2 ^ 31) : toInt32 ((m : Nat) : Int) = m := by
  have h32 : m < 2 ^ 32 := by
    have : (2 : Nat) ^ 31 < 2 ^ 32 := by norm_num
    omega
  rw [toInt32_eq_ite]
  simp only [toUint32_ofNat m h32]
  rw [if_pos h]

theorem toInt32_ofNat_large (m : Nat) (h1 : 2 ^ 31 ≤ m) (h2 : m < 2 ^ 32) :
    toInt32 ((m : Nat) : Int) = (m : Int) - 2 ^ 32 := by
  rw [toInt32_eq_ite]
  simp only [toUint32_ofNat m h2]
  rw [if_neg (by omega)]

theorem jsShl_ofNat (o : Nat) (k : Nat) (hk : k % 32 = k) (h : o < 2 ^ 32) :
    jsShl (o : Int) k = toInt32 ((o * 2 ^ k : Nat) : Int) := by
  unfold jsShl
  rw [hk, toUint32_ofNat o h]
  congr 1
  push_cast
  ring

theorem toUint32_pack (o0 o1 o2 o3 : Nat) (h0 : o0 ≤ 255) (h1 : o1 ≤ 255) (h2 : o2 ≤ 255)
    (h3 : o3 ≤ 255) :
    toUint32 (jsShl (o0 : Int) 24 + jsShl (o1 : Int) 16 + jsShl (o2 : Int) 8 + (o3 : Int)) =
        o0 * 16777216 + o1 * 65536 + o2 * 256 + o3 ∧
      jsShl (o0 : Int) 24 + jsShl (o1 : Int) 16 + jsShl (o2 : Int) 8 + (o3 : Int) =
        toInt32 ((o0 * 16777216 + o1 * 65536 + o2 * 256 + o3 : Nat) : Int) := by
  have n31 : (2 : Nat) ^ 31 = 2147483648 := by norm_num
  have e0 : jsShl (o0 : Int) 24 = toInt32 ((o0 * 16777216 : Nat) : Int) := by
    rw [jsShl_ofNat o0 24 rfl (by rw [nat_two_pow_32]; omega)]
    rw [show (2 : Nat) ^ 24 = 16777216 from by norm_num]
  have e1 : jsShl (o1 : Int) 16 = ((o1 * 65536 : Nat) : Int) := by
    rw [jsShl_ofNat o1 16 rfl (by rw [nat_two_pow_32]; omega)]
    rw [show (2 : Nat) ^ 16 = 65536 from by norm_num]
    exact toInt32_ofNat_small (o1 * 65536) (by rw [n31]; omega)
  have e2 : jsShl (o2 : Int) 8 = ((o2 * 256 : Nat) : Int) := by
    rw [jsShl_ofNat o2 8 rfl (by rw [nat_two_pow_32]; omega)]
    rw [show (2 : Nat) ^ 8 = 256 from by norm_num]
    exact toInt32_ofNat_small (o2 * 256) (by rw [n31]; omega)
  by_cases hc : o0 < 128
  · have t0 : toInt32 ((o0 * 16777216 : Nat) : Int) = ((o0 * 16777216 : Nat) : Int) :=
      toInt32_ofNat_small _ (by rw [n31]; omega)
    have tP : toInt32 ((o0 * 16777216 + o1 * 65536 + o2 * 256 + o3 : Nat) : Int) =
        ((o0 * 16777216 + o1 * 65536 + o2 * 256 + o3 : Nat) : Int) :=
      toInt32_ofNat_small _ (by rw [n31]; omega)
    rw [e0, e1, e2, t0, tP]
    constructor
    · have hlt : o0 * 16777216 + o1 * 65536 + o2 * 256 + o3 < 2 ^ 32 := by
        rw [nat_two_pow_32]; omega
      have harg : ((o0 * 16777216 : Nat) : Int) + ((o1 * 65536 : Nat) : Int) +
          ((o2 * 256 : Nat) : Int) + (o3 : Int) =
          ((o0 * 16777216 + o1 * 65536 + o2 * 256 + o3 : Nat) : Int) := by
        push_cast
        ring
      rw [harg]
      exact toUint32_ofNat _ hlt
    · push_cast
      ring
  · have t0 : toInt32 ((o0 * 16777216 : Nat) : Int) = ((o0 * 16777216 : Nat) : Int) - 2 ^ 32 :=
      toInt32_ofNat_large _ (by rw [n31]; omega) (by rw [nat_two_pow_32]; omega)
    have tP : toInt32 ((o0 * 16777216 + o1 * 65536 + o2 * 256 + o3 : Nat) : Int) =
        ((o0 * 16777216 + o1 * 65536 + o2 * 256 + o3 : Nat) : Int) - 2 ^ 32 :=
      toInt32_ofNat_large _ (by rw [n31]; omega) (by rw [nat_two_pow_32]; omega)
    rw [e0, e1, e2, t0, tP]
    constructor
    · have h1c := toUint32_coe (((o0 * 16777216 : Nat) : Int) - 2 ^ 32 + ((o1 * 65536 : Nat) : Int) +
        ((o2 * 256 : Nat) : Int) + (o3 : Int))
      rw [int_two_pow_32] at h1c
      push_cast at h1c ⊢
      omega
    · push_cast
      ring

theorem land_255_eq_mod (n : Nat) : Nat.land n 255 = n % 256 := by
  have h := Nat.and_pow_two_sub_one_eq_mod n 8
  norm_num at h
  exact h

theorem jsAnd_255 (y : Int) : jsAnd y 255 = ((toUint32 y % 256 : Nat) : Int) := by
  unfold jsAnd
  rw [show toUint32 255 = 255 from by decide, land_255_eq_mod]
  exact toInt32_ofNat_small _ (by have : toUint32 y % 256 < 256 := Nat.mod_lt _ (by norm_num); omega)

theorem jsShrU_24 (x : Int) : jsShrU x 24 = ((toUint32 x / 16777216 : Nat) : Int) := by
  unfold jsShrU
  norm_num

theorem jsShrU_16 (x : Int) : jsShrU x 16 = ((toUint32 x / 65536 : Nat) : Int) := by
  unfold jsShrU
  norm_num

theorem jsShrU_8 (x : Int) : jsShrU x 8 = ((toUint32 x / 256 : Nat) : Int) := by
  unfold jsShrU
  norm_num

theorem jsNumToStr_ofNat (m : Nat) : jsNumToStr (m : Int) = natDigits m := by
  unfold jsNumToStr
  rw [if_neg (by omega)]
  simp

theorem numeroAIp_bytes (x : Int) :
    numeroAIp x = joinDot [natDigits (toUint32 x / 16777216), natDigits (toUint32 x / 65536 % 256),
      natDigits (toUint32 x / 256 % 256), natDigits (toUint32 x % 256)] := by
  have hvlt := toUint32_lt x
  rw [nat_two_pow_32] at hvlt
  unfold numeroAIp
  rw [jsShrU_24, jsShrU_16, jsShrU_8, jsAnd_255, jsAnd_255, jsAnd_255, jsAnd_255]
  rw [toUint32_ofNat _ (by rw [nat_two_pow_32]; omega), toUint32_ofNat _ (by rw [nat_two_pow_32]; omega),
    toUint32_ofNat _ (by rw [nat_two_pow_32]; omega)]
  rw [show toUint32 x / 16777216 % 256 = toUint32 x / 16777216 from by omega]
  simp only [List.map]
  rw [jsNumToStr_ofNat, jsNumToStr_ofNat, jsNumToStr_ofNat, jsNumToStr_ofNat]

theorem ipANumero_parts (s : JSStr) (p0 p1 p2 p3 : JSStr) (hsp : splitDot s = [p0, p1, p2, p3]) :
    ipANumero s = jsShl (jsNumber p0) 24 + jsShl (jsNumber p1) 16 + jsShl (jsNumber p2) 8 +
      jsNumber p3 := by
  unfold ipANumero
  rw [hsp]
  rfl

theorem jsNumber_natDigits (m : Nat) : jsNumber (natDigits m) = (m : Int) := by
  unfold jsNumber
  rw [if_pos ⟨natDigits_ne_nil m, natDigits_all_isDig m⟩, parseDec_natDigits]

theorem ipANumero_numeroAIp (x : Int) :
    ipANumero (numeroAIp x) = toInt32 ((toUint32 x : Nat) : Int) := by
  have hvlt := toUint32_lt x
  rw [nat_two_pow_32] at hvlt
  have hsplit := splitDot_joinDot4 (natDigits (toUint32 x / 16777216))
    (natDigits (toUint32 x / 65536 % 256)) (natDigits (toUint32 x / 256 % 256))
    (natDigits (toUint32 x % 256)) (natDigits_dotfree _) (natDigits_dotfree _)
    (natDigits_dotfree _) (natDigits_dotfree _)
  rw [numeroAIp_bytes x, ipANumero_parts _ _ _ _ _ hsplit, jsNumber_natDigits, jsNumber_natDigits,
    jsNumber_natDigits, jsNumber_natDigits]
  have hpack := (toUint32_pack (toUint32 x / 16777216) (toUint32 x / 65536 % 256)
    (toUint32 x / 256 % 256) (toUint32 x % 256) (by omega) (by omega) (by omega) (by omega)).2
  rw [hpack]
  rw [show toUint32 x / 16777216 * 16777216 + toUint32 x / 65536 % 256 * 65536 +
    toUint32 x / 256 % 256 * 256 + toUint32 x % 256 = toUint32 x from by omega]

theorem toUint32_roundtrip (x : Int) : toUint32 (ipANumero (numeroAIp x)) = toUint32 x := by
  rw [ipANumero_numeroAIp, toUint32_toInt32, toUint32_ofNat _ (toUint32_lt x)]

/-! ## Consequences of the IPv4 validator -/

theorem matchesOctet_facts (p : JSStr) (h : matchesOctet p = true) :
    p ≠ [] ∧ p.all isDig = true ∧ parseDec p ≤ 255 ∧ ∀ c ∈ p, c ≠ '.' := by
  have hdot : ('.').toNat = 46 := rfl
  cases p with
  | nil => exact absurd h (by simp [matchesOctet])
  | cons a t =>
    cases t with
    | nil =>
      rw [show matchesOctet [a] = isDig a from rfl] at h
      have hv := digitVal_lt_ten a h
      refine ⟨by simp, by simp [h], ?_, ?_⟩
      · show 10 * 0 + digitVal a ≤ 255
        omega
      · intro c hc
        simp only [List.mem_singleton] at hc
        subst hc
        exact isDig_ne_dot c h
    | cons b t2 =>
      cases t2 with
      | nil =>
        rw [show matchesOctet [a, b] = (isDig a && isDig b) from rfl] at h
        simp only [Bool.and_eq_true] at h
        obtain ⟨ha, hb⟩ := h
        have hva := digitVal_lt_ten a ha
        have hvb := digitVal_lt_ten b hb
        refine ⟨by simp, by simp [ha, hb], ?_, ?_⟩
        · show 10 * (10 * 0 + digitVal a) + digitVal b ≤ 255
          omega
        · intro c hc
          simp only [List.mem_cons, List.mem_singleton, List.not_mem_nil, or_false] at hc
          rcases hc with rfl | rfl
          · exact isDig_ne_dot c ha
          · exact isDig_ne_dot c hb
      | cons c t3 =>
        cases t3 with
        | nil =>
          rw [show matchesOctet [a, b, c] =
            ((decide (a.toNat = 50) && decide (b.toNat = 53) &&
                decide (48 ≤ c.toNat ∧ c.toNat ≤ 53)) ||
              (decide (a.toNat = 50) && decide (48 ≤ b.toNat ∧ b.toNat ≤ 52) && isDig c) ||
              (decide (a.toNat = 48 ∨ a.toNat = 49) && isDig b && isDig c)) from rfl] at h
          simp only [isDig, Bool.or_eq_true, Bool.and_eq_true, decide_eq_true_eq] at h
          have hda : isDig a = true := by rw [isDig_iff]; omega
          have hdb : isDig b = true := by rw [isDig_iff]; omega
          have hdc : isDig c = true := by rw [isDig_iff]; omega
          refine ⟨by simp, by simp [hda, hdb, hdc], ?_, ?_⟩
          · show 10 * (10 * (10 * 0 + digitVal a) + digitVal b) + digitVal c ≤ 255
            unfold digitVal
            omega
          · intro x hx
            simp only [List.mem_cons, List.mem_singleton, List.not_mem_nil, or_false] at hx
            rcases hx with rfl | rfl | rfl
            · exact isDig_ne_dot x hda
            · exact isDig_ne_dot x hdb
            · exact isDig_ne_dot x hdc
        | cons d t4 => exact absurd h (by simp [matchesOctet])

theorem jsNumber_of_matched (p : JSStr) (h : matchesOctet p = true) :
    jsNumber p = ((parseDec p : Nat) : Int) := by
  obtain ⟨hne, hall, _, _⟩ := matchesOctet_facts p h
  unfold jsNumber
  rw [if_pos ⟨hne, hall⟩]

theorem list_len4 {α : Type} (l : List α) (h : l.length = 4) : ∃ a b c d, l = [a, b, c, d] := by
  cases l with
  | nil => simp at h
  | cons a t =>
    cases t with
    | nil => simp at h
    | cons b t2 =>
      cases t2 with
      | nil => simp at h
      | cons c t3 =>
        cases t3 with
        | nil => simp at h
        | cons d t4 =>
          cases t4 with
          | nil => exact ⟨a, b, c, d, rfl⟩
          | cons e t5 => simp at h

/-- Everything the IPv4 validator guarantees about an accepted string: it
splits into four octet groups, each matching the octet regex; the packed
32-bit value of `ipANumero` is determined by the four parsed octets; and the
octet values are neither all 0 nor all 255. -/
theorem esDireccionIPValida_destruct (s : JSStr) (h : esDireccionIPValida s = true) :
    ∃ p0 p1 p2 p3, splitDot s = [p0, p1, p2, p3] ∧
      matchesOctet p0 = true ∧ matchesOctet p1 = true ∧ matchesOctet p2 = true ∧
      matchesOctet p3 = true ∧
      toUint32 (ipANumero s) =
        parseDec p0 * 16777216 + parseDec p1 * 65536 + parseDec p2 * 256 + parseDec p3 ∧
      ipANumero s = toInt32 ((parseDec p0 * 16777216 + parseDec p1 * 65536 + parseDec p2 * 256 +
        parseDec p3 : Nat) : Int) ∧
      ¬(parseDec p0 = 0 ∧ parseDec p1 = 0 ∧ parseDec p2 = 0 ∧ parseDec p3 = 0) ∧
      ¬(parseDec p0 = 255 ∧ parseDec p1 = 255 ∧ parseDec p2 = 255 ∧ parseDec p3 = 255) := by
  unfold esDireccionIPValida at h
  split at h
  · exact absurd h (by simp)
  dsimp only at h
  split at h
  · exact absurd h (by simp)
  rename_i hne hcond
  obtain ⟨hlen, hall⟩ := not_not.mp hcond
  obtain ⟨p0, p1, p2, p3, hsp⟩ := list_len4 (splitDot s) hlen
  rw [hsp] at hall
  simp only [List.all_cons, List.all_nil, Bool.and_eq_true, Bool.and_true] at hall
  obtain ⟨hm0, hm1, hm2, hm3⟩ := hall
  have hb0 := (matchesOctet_facts p0 hm0).2.2.1
  have hb1 := (matchesOctet_facts p1 hm1).2.2.1
  have hb2 := (matchesOctet_facts p2 hm2).2.2.1
  have hb3 := (matchesOctet_facts p3 hm3).2.2.1
  have hn0 := jsNumber_of_matched p0 hm0
  have hn1 := jsNumber_of_matched p1 hm1
  have hn2 := jsNumber_of_matched p2 hm2
  have hn3 := jsNumber_of_matched p3 hm3
  have hip : ipANumero s = jsShl ((parseDec p0 : Nat) : Int) 24 +
      jsShl ((parseDec p1 : Nat) : Int) 16 + jsShl ((parseDec p2 : Nat) : Int) 8 +
      ((parseDec p3 : Nat) : Int) := by
    rw [ipANumero_parts s p0 p1 p2 p3 hsp, hn0, hn1, hn2, hn3]
  have hpack := toUint32_pack (parseDec p0) (parseDec p1) (parseDec p2) (parseDec p3)
    hb0 hb1 hb2 hb3
  refine ⟨p0, p1, p2, p3, hsp, hm0, hm1, hm2, hm3, ?_, ?_, ?_, ?_⟩
  · rw [hip]
    exact hpack.1
  · rw [hip]
    exact hpack.2
  · -- the octet values are not all 0
    split at h
    · exact absurd h (by simp)
    rename_i hz
    intro ⟨z0, z1, z2, z3⟩
    apply hz
    rw [hsp]
    simp only [List.map_cons, List.map_nil, List.all_cons, List.all_nil, Bool.and_true,
      Bool.and_eq_true, beq_iff_eq]
    rw [hn0, hn1, hn2, hn3, z0, z1, z2, z3]
    norm_num
  · split at h
    · exact absurd h (by simp)
    rename_i hz
    split at h
    · exact absurd h (by simp)
    rename_i h255
    intro ⟨z0, z1, z2, z3⟩
    apply h255
    rw [hsp]
    simp only [List.map_cons, List.map_nil, List.all_cons, List.all_nil, Bool.and_true,
      Bool.and_eq_true, beq_iff_eq]
    rw [hn0, hn1, hn2, hn3, z0, z1, z2, z3]
    norm_num

/-! ## The 32-character binary expansion of a mask -/

theorem maskBinaria_parts (s p0 p1 p2 p3 : JSStr) (hsp : splitDot s = [p0, p1, p2, p3])
    (hm0 : matchesOctet p0 = true) (hm1 : matchesOctet p1 = true)
    (hm2 : matchesOctet p2 = true) (hm3 : matchesOctet p3 = true) :
    maskBinaria s = padStart8 (toBin (parseDec p0)) ++ (padStart8 (toBin (parseDec p1)) ++
      (padStart8 (toBin (parseDec p2)) ++ padStart8 (toBin (parseDec p3)))) := by
  unfold maskBinaria
  rw [hsp]
  simp only [List.map_cons, List.map_nil, List.flatten_cons, List.flatten_nil, List.append_nil]
  rw [jsNumber_of_matched p0 hm0, jsNumber_of_matched p1 hm1, jsNumber_of_matched p2 hm2,
    jsNumber_of_matched p3 hm3]
  simp

/-! ## Per-octet facts about the 8-bit expansion (checked by evaluation) -/

theorem octet_bits_count : ∀ o : Nat, o < 256 →
    ((padStart8 (toBin o)).filter fun c => c == '1').length +
      ((padStart8 (toBin o)).filter fun c => c == '0').length = 8 := by decide

theorem octet_allOnes : ∀ o : Nat, o < 256 →
    (allOnesStr (padStart8 (toBin o)) = true ↔ o = 255) := by decide

theorem octet_allZeros : ∀ o : Nat, o < 256 →
    (allZerosStr (padStart8 (toBin o)) = true ↔ o = 0) := by decide

theorem octet_otz_mem : ∀ o : Nat, o < 256 → onesThenZeros (padStart8 (toBin o)) = true →
    o ∈ [0, 128, 192, 224, 240, 248, 252, 254, 255] := by decide

theorem mem_mask_values (o : Nat) (h : o ∈ [0, 128, 192, 224, 240, 248, 252, 254, 255]) :
    ∃ k, k ≤ 8 ∧ o = 256 - 2 ^ (8 - k) := by
  fin_cases h
  · exact ⟨0, by norm_num, by norm_num⟩
  · exact ⟨1, by norm_num, by norm_num⟩
  · exact ⟨2, by norm_num, by norm_num⟩
  · exact ⟨3, by norm_num, by norm_num⟩
  · exact ⟨4, by norm_num, by norm_num⟩
  · exact ⟨5, by norm_num, by norm_num⟩
  · exact ⟨6, by norm_num, by norm_num⟩
  · exact ⟨7, by norm_num, by norm_num⟩
  · exact ⟨8, by norm_num, by norm_num⟩

/-! ## The pattern `^1*0*$` interacts with concatenation -/

theorem otz_of_allZeros (l : JSStr) (h : allZerosStr l = true) : onesThenZeros l = true := by
  cases l with
  | nil => rfl
  | cons c cs =>
    simp only [allZerosStr, List.all_cons, Bool.and_eq_true, beq_iff_eq] at h
    obtain ⟨rfl, hcs⟩ := h
    unfold onesThenZeros
    rw [show List.dropWhile (fun c => c == '1') ('0' :: cs) = '0' :: cs from by
      simp [List.dropWhile]]
    simp [allZerosStr, hcs]

theorem otz_append (l m : JSStr) : onesThenZeros (l ++ m) = true ↔
    (allOnesStr l = true ∧ onesThenZeros m = true) ∨
    (onesThenZeros l = true ∧ allZerosStr m = true) := by
  induction l with
  | nil =>
    simp only [List.nil_append, allOnesStr, List.all_nil]
    constructor
    · intro hm
      exact Or.inl ⟨by trivial, hm⟩
    · rintro (⟨_, hm⟩ | ⟨_, hz⟩)
      · exact hm
      · exact otz_of_allZeros m hz
  | cons c l ih =>
    by_cases hc : c = '1'
    · subst hc
      have e1 : onesThenZeros ('1' :: (l ++ m)) = onesThenZeros (l ++ m) := by
        simp [onesThenZeros, List.dropWhile]
      have e2 : onesThenZeros ('1' :: l) = onesThenZeros l := by
        simp [onesThenZeros, List.dropWhile]
      have e3 : allOnesStr ('1' :: l) = allOnesStr l := by simp [allOnesStr]
      rw [List.cons_append, e1, e2, e3, ih]
    · have hcf : (c == '1') = false := by simp [hc]
      have e1 : onesThenZeros (c :: (l ++ m)) = allZerosStr (c :: (l ++ m)) := by
        unfold onesThenZeros
        rw [List.dropWhile_cons_of_neg (by simp [hcf])]
      have e2 : onesThenZeros (c :: l) = allZerosStr (c :: l) := by
        unfold onesThenZeros
        rw [List.dropWhile_cons_of_neg (by simp [hcf])]
      have e3 : allOnesStr (c :: l) = false := by simp [allOnesStr, hc]
      rw [List.cons_append, e1, e2, e3]
      simp only [Bool.false_eq_true, false_and, false_or]
      simp [allZerosStr, List.all_append, and_assoc, Bool.and_eq_true]

theorem allZerosStr_append (l m : JSStr) :
    allZerosStr (l ++ m) = (allZerosStr l && allZerosStr m) := by
  simp [allZerosStr, List.all_append]

theorem allOnesStr_append (l m : JSStr) :
    allOnesStr (l ++ m) = (allOnesStr l && allOnesStr m) := by
  simp [allOnesStr, List.all_append]

/-- A 32-bit pattern built from four octet expansions that matches `^1*0*$`
denotes the value `2^32 - 2^(32-p)` for some prefix length `p ≤ 32`. -/
theorem otz_value (o0 o1 o2 o3 : Nat) (h0 : o0 ≤ 255) (h1 : o1 ≤ 255) (h2 : o2 ≤ 255)
    (h3 : o3 ≤ 255)
    (h : onesThenZeros (padStart8 (toBin o0) ++ (padStart8 (toBin o1) ++
      (padStart8 (toBin o2) ++ padStart8 (toBin o3)))) = true) :
    ∃ p, p ≤ 32 ∧ o0 * 16777216 + o1 * 65536 + o2 * 256 + o3 = 4294967296 - 2 ^ (32 - p) := by
  rw [otz_append] at h
  rcases h with ⟨ha0, h⟩ | ⟨hz0, hrest⟩
  · rw [otz_append] at h
    have ho0 : o0 = 255 := (octet_allOnes o0 (by omega)).mp ha0
    rcases h with ⟨ha1, h⟩ | ⟨hz1, hrest⟩
    · rw [otz_append] at h
      have ho1 : o1 = 255 := (octet_allOnes o1 (by omega)).mp ha1
      rcases h with ⟨ha2, h⟩ | ⟨hz2, hrest⟩
      · have ho2 : o2 = 255 := (octet_allOnes o2 (by omega)).mp ha2
        obtain ⟨k, hk, ho3⟩ := mem_mask_values o3 (octet_otz_mem o3 (by omega) h)
        refine ⟨24 + k, by omega, ?_⟩
        subst ho0 ho1 ho2 ho3
        interval_cases k <;> norm_num
      · have ho2 := mem_mask_values o2 (octet_otz_mem o2 (by omega) hz2)
        have ho3 : o3 = 0 := (octet_allZeros o3 (by omega)).mp hrest
        obtain ⟨k, hk, ho2v⟩ := ho2
        refine ⟨16 + k, by omega, ?_⟩
        subst ho0 ho1 ho2v ho3
        interval_cases k <;> norm_num
    · rw [allZerosStr_append] at hrest
      simp only [Bool.and_eq_true] at hrest
      obtain ⟨hz2, hz3⟩ := hrest
      have ho1 := mem_mask_values o1 (octet_otz_mem o1 (by omega) hz1)
      have ho2 : o2 = 0 := (octet_allZeros o2 (by omega)).mp hz2
      have ho3 : o3 = 0 := (octet_allZeros o3 (by omega)).mp hz3
      obtain ⟨k, hk, ho1v⟩ := ho1
      refine ⟨8 + k, by omega, ?_⟩
      subst ho0 ho1v ho2 ho3
      interval_cases k <;> norm_num
  · rw [allZerosStr_append, allZerosStr_append] at hrest
    simp only [Bool.and_eq_true] at hrest
    obtain ⟨hz1, hz2, hz3⟩ := hrest
    have ho0 := mem_mask_values o0 (octet_otz_mem o0 (by omega) hz0)
    have ho1 : o1 = 0 := (octet_allZeros o1 (by omega)).mp hz1
    have ho2 : o2 = 0 := (octet_allZeros o2 (by omega)).mp hz2
    have ho3 : o3 = 0 := (octet_allZeros o3 (by omega)).mp hz3
    obtain ⟨k, hk, ho0v⟩ := ho0
    refine ⟨k, by omega, ?_⟩
    subst ho0v ho1 ho2 ho3
    interval_cases k <;> norm_num

/-! ## The canonical prefix masks, byte by byte (checked by evaluation) -/

theorem canonical_mask_otz : ∀ p : Nat, p < 33 →
    onesThenZeros (padStart8 (toBin ((4294967296 - 2 ^ (32 - p)) / 16777216)) ++
      (padStart8 (toBin ((4294967296 - 2 ^ (32 - p)) / 65536 % 256)) ++
        (padStart8 (toBin ((4294967296 - 2 ^ (32 - p)) / 256 % 256)) ++
          padStart8 (toBin ((4294967296 - 2 ^ (32 - p)) % 256))))) = true := by decide

theorem canonical_mask_ones : ∀ p : Nat, p < 33 →
    ((padStart8 (toBin ((4294967296 - 2 ^ (32 - p)) / 16777216)) ++
      (padStart8 (toBin ((4294967296 - 2 ^ (32 - p)) / 65536 % 256)) ++
        (padStart8 (toBin ((4294967296 - 2 ^ (32 - p)) / 256 % 256)) ++
          padStart8 (toBin ((4294967296 - 2 ^ (32 - p)) % 256))))).filter fun c => c == '1').length
      = p := by decide

theorem mask_build_octets : ∀ q : Nat, q < 33 →
    ((List.range 4).map fun i =>
        parseBin (substrJS (repeatChar '1' q ++ repeatChar '0' (32 - q)) (i * 8) 8)) =
      [(4294967296 - 2 ^ (32 - q)) / 16777216, (4294967296 - 2 ^ (32 - q)) / 65536 % 256,
        (4294967296 - 2 ^ (32 - q)) / 256 % 256, (4294967296 - 2 ^ (32 - q)) % 256] := by decide

/-! ## Ones and zeros of a mask expansion -/

theorem mask_counts (s p0 p1 p2 p3 : JSStr) (hsp : splitDot s = [p0, p1, p2, p3])
    (hm0 : matchesOctet p0 = true) (hm1 : matchesOctet p1 = true)
    (hm2 : matchesOctet p2 = true) (hm3 : matchesOctet p3 = true) :
    ((maskBinaria s).filter fun c => c == '1').length +
      ((maskBinaria s).filter fun c => c == '0').length = 32 := by
  rw [maskBinaria_parts s p0 p1 p2 p3 hsp hm0 hm1 hm2 hm3]
  simp only [List.filter_append, List.length_append]
  have c0 := octet_bits_count (parseDec p0) (by have := (matchesOctet_facts p0 hm0).2.2.1; omega)
  have c1 := octet_bits_count (parseDec p1) (by have := (matchesOctet_facts p1 hm1).2.2.1; omega)
  have c2 := octet_bits_count (parseDec p2) (by have := (matchesOctet_facts p2 hm2).2.2.1; omega)
  have c3 := octet_bits_count (parseDec p3) (by have := (matchesOctet_facts p3 hm3).2.2.1; omega)
  omega

/-- For well-formed masks, the computed host count is
`2 ^ (32 - prefixLength) - 2` where the prefix length is the number of 1 bits
(`_calcularCIDR`). -/
theorem hosts_formula (s p0 p1 p2 p3 : JSStr) (hsp : splitDot s = [p0, p1, p2, p3])
    (hm0 : matchesOctet p0 = true) (hm1 : matchesOctet p1 = true)
    (hm2 : matchesOctet p2 = true) (hm3 : matchesOctet p3 = true) :
    calcularHostsDesdeMascara s = (2 : Int) ^ (32 - calcularCIDR s) - 2 := by
  have hc := mask_counts s p0 p1 p2 p3 hsp hm0 hm1 hm2 hm3
  unfold calcularHostsDesdeMascara calcularCIDR
  have hz : ((maskBinaria s).filter fun c => c == '0').length =
      32 - ((maskBinaria s).filter fun c => c == '1').length := by omega
  rw [hz]

/-- Everything the mask validator guarantees about an accepted string: the
string is IPv4-valid and its 32-bit value is the canonical mask of some prefix
length `p` between 1 and 31, which is also the count of 1 bits. -/
theorem esMascaraSubredValida_destruct (s : JSStr) (h : esMascaraSubredValida s = true) :
    esDireccionIPValida s = true ∧ ∃ p, 1 ≤ p ∧ p ≤ 31 ∧
      toUint32 (ipANumero s) = 4294967296 - 2 ^ (32 - p) ∧ calcularCIDR s = p := by
  unfold esMascaraSubredValida at h
  split at h
  · exact absurd h (by simp)
  rename_i hvv
  have hv : esDireccionIPValida s = true := not_not.mp hvv
  obtain ⟨p0, p1, p2, p3, hsp, hm0, hm1, hm2, hm3, hval, _, hnz, hn255⟩ :=
    esDireccionIPValida_destruct s hv
  have hb0 := (matchesOctet_facts p0 hm0).2.2.1
  have hb1 := (matchesOctet_facts p1 hm1).2.2.1
  have hb2 := (matchesOctet_facts p2 hm2).2.2.1
  have hb3 := (matchesOctet_facts p3 hm3).2.2.1
  rw [maskBinaria_parts s p0 p1 p2 p3 hsp hm0 hm1 hm2 hm3] at h
  obtain ⟨p, hple, hpv⟩ := otz_value (parseDec p0) (parseDec p1) (parseDec p2) (parseDec p3)
    hb0 hb1 hb2 hb3 h
  have hXpos : 0 < 2 ^ (32 - p) := Nat.two_pow_pos _
  have hXle : 2 ^ (32 - p) ≤ 4294967296 := by
    calc 2 ^ (32 - p) ≤ 2 ^ 32 := Nat.pow_le_pow_right (by norm_num) (by omega)
    _ = 4294967296 := by norm_num
  have hp1 : 1 ≤ p := by
    by_contra hcon
    have hp0 : p = 0 := by omega
    subst hp0
    simp only [Nat.sub_zero] at hpv
    rw [show (2 : Nat) ^ 32 = 4294967296 from by norm_num] at hpv
    exact hnz (by omega)
  have hp31 : p ≤ 31 := by
    by_contra hcon
    have hp32 : p = 32 := by omega
    subst hp32
    simp only [Nat.sub_self, pow_zero] at hpv
    exact hn255 (by omega)
  refine ⟨hv, p, hp1, hp31, by rw [hval]; omega, ?_⟩
  unfold calcularCIDR
  rw [maskBinaria_parts s p0 p1 p2 p3 hsp hm0 hm1 hm2 hm3]
  have e0 : parseDec p0 = (4294967296 - 2 ^ (32 - p)) / 16777216 := by omega
  have e1 : parseDec p1 = (4294967296 - 2 ^ (32 - p)) / 65536 % 256 := by omega
  have e2 : parseDec p2 = (4294967296 - 2 ^ (32 - p)) / 256 % 256 := by omega
  have e3 : parseDec p3 = (4294967296 - 2 ^ (32 - p)) % 256 := by omega
  rw [e0, e1, e2, e3]
  exact canonical_mask_ones p (by omega)

/-- Conversely, an IPv4-valid string whose 32-bit value is a canonical prefix
mask passes the mask validator. -/
theorem esMascaraSubredValida_of_value (s : JSStr) (hv : esDireccionIPValida s = true)
    (p : Nat) (hp : p ≤ 32) (hval : toUint32 (ipANumero s) = 4294967296 - 2 ^ (32 - p)) :
    esMascaraSubredValida s = true := by
  unfold esMascaraSubredValida
  rw [if_neg (not_not_intro hv)]
  obtain ⟨p0, p1, p2, p3, hsp, hm0, hm1, hm2, hm3, hvalp, _, _, _⟩ :=
    esDireccionIPValida_destruct s hv
  have hb0 := (matchesOctet_facts p0 hm0).2.2.1
  have hb1 := (matchesOctet_facts p1 hm1).2.2.1
  have hb2 := (matchesOctet_facts p2 hm2).2.2.1
  have hb3 := (matchesOctet_facts p3 hm3).2.2.1
  have hXpos : 0 < 2 ^ (32 - p) := Nat.two_pow_pos _
  have hXle : 2 ^ (32 - p) ≤ 4294967296 := by
    calc 2 ^ (32 - p) ≤ 2 ^ 32 := Nat.pow_le_pow_right (by norm_num) (by omega)
    _ = 4294967296 := by norm_num
  have hpack : parseDec p0 * 16777216 + parseDec p1 * 65536 + parseDec p2 * 256 + parseDec p3 =
      4294967296 - 2 ^ (32 - p) := by rw [← hvalp, hval]
  rw [maskBinaria_parts s p0 p1 p2 p3 hsp hm0 hm1 hm2 hm3]
  have e0 : parseDec p0 = (4294967296 - 2 ^ (32 - p)) / 16777216 := by omega
  have e1 : parseDec p1 = (4294967296 - 2 ^ (32 - p)) / 65536 % 256 := by omega
  have e2 : parseDec p2 = (4294967296 - 2 ^ (32 - p)) / 256 % 256 := by omega
  have e3 : parseDec p3 = (4294967296 - 2 ^ (32 - p)) % 256 := by omega
  rw [e0, e1, e2, e3]
  exact canonical_mask_otz p (by omega)

/-! ## More 32-bit helpers -/

theorem lor_pos_right (a b : Nat) (hb : 0 < b) : 0 < Nat.lor a b := by
  show 0 < a ||| b
  by_contra hcon
  have h0 : a ||| b = 0 := by omega
  have hb0 : b = 0 := by
    apply Nat.eq_of_testBit_eq
    intro i
    have ht := congrArg (fun x => Nat.testBit x i) h0
    simp only [Nat.testBit_lor, Nat.zero_testBit, Bool.or_eq_false_iff] at ht
    simp [ht.2]
  omega

theorem toUint32_toInt32_add (m : Nat) (d : Int) (hm : m < 2 ^ 32) (h0 : 0 ≤ (m : Int) + d)
    (h1 : (m : Int) + d < 2 ^ 32) :
    (toUint32 (toInt32 ((m : Nat) : Int) + d) : Int) = (m : Int) + d := by
  have hc1 := toUint32_coe (toInt32 ((m : Nat) : Int) + d)
  rw [nat_two_pow_32] at hm
  rw [int_two_pow_32] at h1
  rcases toInt32_or ((m : Nat) : Int) with h | h <;> rw [toUint32_ofNat m (by omega)] at h
  · rw [h] at hc1 ⊢
    rw [int_two_pow_32] at hc1
    omega
  · rw [h] at hc1 ⊢
    rw [int_two_pow_32] at hc1 ⊢
    omega

/-! ## Claim C5 -/

/-- C5: `esMascaraSubredValida` accepts a string exactly when it passes the
IPv4 validity check and its 32-bit binary expansion is a run of 1 bits
followed by a run of 0 bits (equivalently, its value is `2^32 - 2^(32-p)` for
some prefix length `p ≤ 32`); in particular the non-contiguous mask
`255.0.255.0` is rejected. -/
theorem esMascaraSubredValida_spec :
    (∀ s : JSStr, esMascaraSubredValida s = true ↔
      (esDireccionIPValida s = true ∧
        ∃ p, p ≤ 32 ∧ toUint32 (ipANumero s) = 2 ^ 32 - 2 ^ (32 - p))) ∧
    esMascaraSubredValida (str "255.0.255.0") = false := by
  constructor
  · intro s
    rw [show (2 : Nat) ^ 32 = 4294967296 from by norm_num]
    constructor
    · intro h
      obtain ⟨hv, p, hp1, hp31, hval, _⟩ := esMascaraSubredValida_destruct s h
      exact ⟨hv, p, by omega, hval⟩
    · rintro ⟨hv, p, hp, hval⟩
      exact esMascaraSubredValida_of_value s hv p hp hval
  · decide

/-! ## Claim C1 -/

/-- C1: for every IP and mask accepted by the validator, the result of
`calcularSubredCompleta` satisfies: network = ip AND mask; broadcast =
network OR (NOT mask) as unsigned 32-bit; first host = network + 1; last host
= broadcast - 1; gateway = first host; and totalHosts =
`2 ^ (32 - prefixLength) - 2` where the prefix length counts the 1 bits of
the mask. -/
theorem calcularSubredCompleta_invariantes (ip mascara : JSStr)
    (hip : esDireccionIPValida ip = true) (hm : esMascaraSubredValida mascara = true) :
    toUint32 (ipANumero (calcularSubredCompleta ip mascara).networkIP) =
        Nat.land (toUint32 (ipANumero ip)) (toUint32 (ipANumero mascara)) ∧
      toUint32 (ipANumero (calcularSubredCompleta ip mascara).broadcastIP) =
        Nat.lor (Nat.land (toUint32 (ipANumero ip)) (toUint32 (ipANumero mascara)))
          (4294967295 - toUint32 (ipANumero mascara)) ∧
      toUint32 (ipANumero (calcularSubredCompleta ip mascara).firstHostIP) =
        Nat.land (toUint32 (ipANumero ip)) (toUint32 (ipANumero mascara)) + 1 ∧
      toUint32 (ipANumero (calcularSubredCompleta ip mascara).lastHostIP) =
        Nat.lor (Nat.land (toUint32 (ipANumero ip)) (toUint32 (ipANumero mascara)))
          (4294967295 - toUint32 (ipANumero mascara)) - 1 ∧
      (calcularSubredCompleta ip mascara).gatewayIP =
        (calcularSubredCompleta ip mascara).firstHostIP ∧
      (calcularSubredCompleta ip mascara).totalHosts =
        (2 : Int) ^ (32 - calcularCIDR mascara) - 2 := by
  obtain ⟨hvm, p, hp1, hp31, hmv, hcidr⟩ := esMascaraSubredValida_destruct mascara hm
  have hXpos : 0 < 2 ^ (32 - p) := Nat.two_pow_pos _
  have hXge2 : 2 ≤ 2 ^ (32 - p) := by
    calc (2 : Nat) = 2 ^ 1 := by norm_num
    _ ≤ 2 ^ (32 - p) := Nat.pow_le_pow_right (by norm_num) (by omega)
  have hmu_le : toUint32 (ipANumero mascara) ≤ 4294967294 := by rw [hmv]; omega
  have hnet_le : Nat.land (toUint32 (ipANumero ip)) (toUint32 (ipANumero mascara)) ≤ 4294967294 :=
    le_trans Nat.and_le_right hmu_le
  have hnet_lt : Nat.land (toUint32 (ipANumero ip)) (toUint32 (ipANumero mascara)) < 2 ^ 32 := by
    rw [nat_two_pow_32]; omega
  have hinv_lt : 4294967295 - toUint32 (ipANumero mascara) < 2 ^ 32 := by
    rw [nat_two_pow_32]; omega
  have hinv_pos : 0 < 4294967295 - toUint32 (ipANumero mascara) := by omega
  -- the result record fields
  have eNet : (calcularSubredCompleta ip mascara).networkIP =
      numeroAIp (jsAnd (ipANumero ip) (ipANumero mascara)) := rfl
  have eBc : (calcularSubredCompleta ip mascara).broadcastIP =
      numeroAIp (jsOr (ipANumero (numeroAIp (jsAnd (ipANumero ip) (ipANumero mascara))))
        (jsShrU (jsNot (ipANumero mascara)) 0)) := rfl
  have eFirst : (calcularSubredCompleta ip mascara).firstHostIP =
      numeroAIp (ipANumero (numeroAIp (jsAnd (ipANumero ip) (ipANumero mascara))) + 1) := rfl
  have eLast : (calcularSubredCompleta ip mascara).lastHostIP =
      numeroAIp (ipANumero (numeroAIp (jsOr
        (ipANumero (numeroAIp (jsAnd (ipANumero ip) (ipANumero mascara))))
        (jsShrU (jsNot (ipANumero mascara)) 0))) - 1) := rfl
  -- value of the reparsed network string
  have hnet_ip : ipANumero (numeroAIp (jsAnd (ipANumero ip) (ipANumero mascara))) =
      toInt32 ((Nat.land (toUint32 (ipANumero ip)) (toUint32 (ipANumero mascara)) : Nat) : Int) := by
    rw [ipANumero_numeroAIp, toUint32_jsAnd]
  -- value of the or argument
  have hor_val : toUint32 (jsOr (ipANumero (numeroAIp (jsAnd (ipANumero ip) (ipANumero mascara))))
      (jsShrU (jsNot (ipANumero mascara)) 0)) =
      Nat.lor (Nat.land (toUint32 (ipANumero ip)) (toUint32 (ipANumero mascara)))
        (4294967295 - toUint32 (ipANumero mascara)) := by
    rw [toUint32_jsOr, jsShrU_zero, toUint32_roundtrip, toUint32_jsAnd,
      toUint32_ofNat _ (toUint32_lt (jsNot (ipANumero mascara))), toUint32_jsNot]
  have hbc_lt : Nat.lor (Nat.land (toUint32 (ipANumero ip)) (toUint32 (ipANumero mascara)))
      (4294967295 - toUint32 (ipANumero mascara)) < 2 ^ 32 :=
    Nat.or_lt_two_pow hnet_lt hinv_lt
  have hbc_pos : 0 < Nat.lor (Nat.land (toUint32 (ipANumero ip)) (toUint32 (ipANumero mascara)))
      (4294967295 - toUint32 (ipANumero mascara)) := lor_pos_right _ _ hinv_pos
  refine ⟨?_, ?_, ?_, ?_, rfl, ?_⟩
  · rw [eNet, toUint32_roundtrip, toUint32_jsAnd]
  · rw [eBc, toUint32_roundtrip, hor_val]
  · rw [eFirst, toUint32_roundtrip, hnet_ip]
    have h := toUint32_toInt32_add
      (Nat.land (toUint32 (ipANumero ip)) (toUint32 (ipANumero mascara))) 1 hnet_lt
      (by positivity) (by rw [int_two_pow_32]; rw [nat_two_pow_32] at hnet_lt; omega)
    omega
  · rw [eLast, toUint32_roundtrip]
    have hbc_ip : ipANumero (numeroAIp (jsOr
        (ipANumero (numeroAIp (jsAnd (ipANumero ip) (ipANumero mascara))))
        (jsShrU (jsNot (ipANumero mascara)) 0))) =
        toInt32 ((Nat.lor (Nat.land (toUint32 (ipANumero ip)) (toUint32 (ipANumero mascara)))
          (4294967295 - toUint32 (ipANumero mascara)) : Nat) : Int) := by
      rw [ipANumero_numeroAIp, hor_val]
    rw [hbc_ip, Int.sub_eq_add_neg]
    have h := toUint32_toInt32_add
      (Nat.lor (Nat.land (toUint32 (ipANumero ip)) (toUint32 (ipANumero mascara)))
        (4294967295 - toUint32 (ipANumero mascara))) (-1) hbc_lt
      (by rw [nat_two_pow_32] at hbc_lt; omega)
      (by rw [int_two_pow_32]; rw [nat_two_pow_32] at hbc_lt; omega)
    omega
  · show calcularHostsDesdeMascara mascara = _
    obtain ⟨q0, q1, q2, q3, hsp, hq0, hq1, hq2, hq3, _⟩ := esDireccionIPValida_destruct mascara hvm
    exact hosts_formula mascara q0 q1 q2 q3 hsp hq0 hq1 hq2 hq3

/-- Witness for C1: scenario 2 of the specification
(`10.0.0.50` with mask `255.255.255.0`). -/
theorem calcularSubredCompleta_invariantes_witness :
    esDireccionIPValida (str "10.0.0.50") = true ∧
      esMascaraSubredValida (str "255.255.255.0") = true ∧
      (toUint32 (ipANumero (calcularSubredCompleta (str "10.0.0.50")
            (str "255.255.255.0")).networkIP) =
          Nat.land (toUint32 (ipANumero (str "10.0.0.50")))
            (toUint32 (ipANumero (str "255.255.255.0"))) ∧
        toUint32 (ipANumero (calcularSubredCompleta (str "10.0.0.50")
            (str "255.255.255.0")).broadcastIP) =
          Nat.lor (Nat.land (toUint32 (ipANumero (str "10.0.0.50")))
              (toUint32 (ipANumero (str "255.255.255.0"))))
            (4294967295 - toUint32 (ipANumero (str "255.255.255.0"))) ∧
        toUint32 (ipANumero (calcularSubredCompleta (str "10.0.0.50")
            (str "255.255.255.0")).firstHostIP) =
          Nat.land (toUint32 (ipANumero (str "10.0.0.50")))
            (toUint32 (ipANumero (str "255.255.255.0"))) + 1 ∧
        toUint32 (ipANumero (calcularSubredCompleta (str "10.0.0.50")
            (str "255.255.255.0")).lastHostIP) =
          Nat.lor (Nat.land (toUint32 (ipANumero (str "10.0.0.50")))
              (toUint32 (ipANumero (str "255.255.255.0"))))
            (4294967295 - toUint32 (ipANumero (str "255.255.255.0"))) - 1 ∧
        (calcularSubredCompleta (str "10.0.0.50") (str "255.255.255.0")).gatewayIP =
          (calcularSubredCompleta (str "10.0.0.50") (str "255.255.255.0")).firstHostIP ∧
        (calcularSubredCompleta (str "10.0.0.50") (str "255.255.255.0")).totalHosts =
          (2 : Int) ^ (32 - calcularCIDR (str "255.255.255.0")) - 2) ∧
      (calcularSubredCompleta (str "10.0.0.50") (str "255.255.255.0")).networkIP =
        str "10.0.0.0" ∧
      (calcularSubredCompleta (str "10.0.0.50") (str "255.255.255.0")).broadcastIP =
        str "10.0.0.255" ∧
      (calcularSubredCompleta (str "10.0.0.50") (str "255.255.255.0")).firstHostIP =
        str "10.0.0.1" ∧
      (calcularSubredCompleta (str "10.0.0.50") (str "255.255.255.0")).lastHostIP =
        str "10.0.0.254" ∧
      (calcularSubredCompleta (str "10.0.0.50") (str "255.255.255.0")).totalHosts = 254 :=
  ⟨by decide, by decide,
    calcularSubredCompleta_invariantes (str "10.0.0.50") (str "255.255.255.0")
      (by decide) (by decide),
    by decide, by decide, by decide, by decide, by decide⟩

/-! ## Claim C8 -/

/-- C8: the network address of an IP is contained in its own subnet:
`ipEstaEnSubred(red, red, mascara)` holds, where `red = calcularIpRed(ip,
mascara)`, for all well-formed 4-octet dotted-decimal inputs. -/
theorem ipEstaEnSubred_self (ip mascara : JSStr) (h1 : esIpBienFormada ip = true)
    (h2 : esIpBienFormada mascara = true) :
    ipEstaEnSubred (calcularIpRed ip mascara) (calcularIpRed ip mascara) mascara = true := by
  unfold ipEstaEnSubred
  rw [decide_eq_true_eq]
  unfold calcularIpRed
  rw [ipANumero_numeroAIp, toUint32_jsAnd]
  unfold jsAnd
  rw [toUint32_toInt32,
    toUint32_ofNat (Nat.land (toUint32 (ipANumero ip)) (toUint32 (ipANumero mascara)))
      (Nat.and_lt_two_pow _ (toUint32_lt (ipANumero mascara)))]
  rw [show Nat.land (Nat.land (toUint32 (ipANumero ip)) (toUint32 (ipANumero mascara)))
      (toUint32 (ipANumero mascara)) =
      Nat.land (toUint32 (ipANumero ip)) (toUint32 (ipANumero mascara)) from by
    show toUint32 (ipANumero ip) &&& toUint32 (ipANumero mascara) &&& toUint32 (ipANumero mascara) =
      toUint32 (ipANumero ip) &&& toUint32 (ipANumero mascara)
    rw [Nat.land_assoc, Nat.and_self]]

/-- Witness for C8 at ip `192.168.1.100`, mask `255.255.255.0`. -/
theorem ipEstaEnSubred_self_witness :
    esIpBienFormada (str "192.168.1.100") = true ∧
      esIpBienFormada (str "255.255.255.0") = true ∧
      ipEstaEnSubred (calcularIpRed (str "192.168.1.100") (str "255.255.255.0"))
        (calcularIpRed (str "192.168.1.100") (str "255.255.255.0")) (str "255.255.255.0") =
        true :=
  ⟨by decide, by decide,
    ipEstaEnSubred_self (str "192.168.1.100") (str "255.255.255.0") (by decide) (by decide)⟩

/-! ## Claim C6 -/

/-- C6: `validarEntradaCompleta` checks the IP before the mode-specific field:
whenever the IP is rejected, the outcome is invalid with the IP error message,
for every entry mode and regardless of the mask and host-count arguments. -/
theorem validarEntradaCompleta_ip_primero (ip tipoEntrada mascara : JSStr) (numeroHosts : Int)
    (h : esDireccionIPValida ip = false) :
    validarEntradaCompleta ip tipoEntrada mascara numeroHosts =
      { esValido := false, mensaje := some (obtenerMensajeError (str "ip") ip) } := by
  unfold validarEntradaCompleta
  rw [if_pos (by simp [h])]

/-- Witness for C6: scenario 3, ip `0.0.0.0` in both entry modes. -/
theorem validarEntradaCompleta_ip_primero_witness :
    esDireccionIPValida (str "0.0.0.0") = false ∧
      validarEntradaCompleta (str "0.0.0.0") (str "hosts") (str "255.255.255.0") 50 =
        { esValido := false,
          mensaje := some (str "La dirección 0.0.0.0 no es válida para cálculos de subred.") } ∧
      validarEntradaCompleta (str "0.0.0.0") (str "mascara") (str "255.255.255.0") 50 =
        { esValido := false,
          mensaje := some (str "La dirección 0.0.0.0 no es válida para cálculos de subred.") } :=
  ⟨by decide,
    (validarEntradaCompleta_ip_primero (str "0.0.0.0") (str "hosts") (str "255.255.255.0") 50
      (by decide)).trans (by decide),
    (validarEntradaCompleta_ip_primero (str "0.0.0.0") (str "mascara") (str "255.255.255.0") 50
      (by decide)).trans (by decide)⟩

/-! ## Claim C7 -/

theorem isDig_not_ws (c : Char) (h : isDig c = true) : c.isWhitespace = false := by
  rw [isDig_iff] at h
  by_contra hws
  rw [Bool.not_eq_false] at hws
  unfold Char.isWhitespace at hws
  simp only [Bool.or_eq_true, decide_eq_true_eq] at hws
  rcases hws with ((h1 | h1) | h1) | h1 <;> (subst h1; exact absurd h (by decide))

theorem takeWhile_isDig_self (l : JSStr) (h : ∀ c ∈ l, isDig c = true) :
    l.takeWhile isDig = l := by
  induction l with
  | nil => rfl
  | cons c cs ih =>
    rw [List.takeWhile_cons, h c (List.mem_cons_self c cs)]
    simp only [if_true]
    rw [ih fun d hd => h d (List.mem_cons_of_mem c hd)]

theorem dropWhile_ws_digits (c : Char) (cs : JSStr) (h : isDig c = true) :
    (c :: cs).dropWhile Char.isWhitespace = c :: cs := by
  rw [List.dropWhile_cons, isDig_not_ws c h]
  simp

theorem parseIntJS_digits (l : JSStr) (hne : l ≠ []) (h : ∀ c ∈ l, isDig c = true) :
    parseIntJS l = some ((parseDec l : Nat) : Int) := by
  cases l with
  | nil => exact absurd rfl hne
  | cons c cs =>
    have hc := h c (List.mem_cons_self c cs)
    unfold parseIntJS
    rw [dropWhile_ws_digits c cs hc]
    split
    · next resto heq =>
      have : c = '-' := by injection heq
      subst this
      exact absurd hc (by decide)
    · next resto heq =>
      have : c = '+' := by injection heq
      subst this
      exact absurd hc (by decide)
    · rw [takeWhile_isDig_self _ h, if_neg (by simp)]

theorem natDigits_length_le (m : Nat) : ∀ k, 1 ≤ k → m < 10 ^ k →
    (natDigits m).length ≤ k := by
  induction m using Nat.strong_induction_on with
  | _ m ih =>
    intro k hk hlt
    rw [natDigits_eq]
    by_cases hm : m < 10
    · rw [if_pos hm]
      simpa using hk
    · rw [if_neg hm, List.length_append]
      have hk2 : 2 ≤ k := by
        by_contra hcon
        push_neg at hcon
        have hke : k = 1 := by omega
        subst hke
        simp at hlt
        omega
      have hpow : 10 ^ k = 10 ^ (k - 1) * 10 := by
        rw [← pow_succ]
        congr 1
        omega
      have hrec := ih (m / 10) (by omega) (k - 1) (by omega) (by
        rw [hpow] at hlt
        omega)
      simp only [List.length_singleton]
      omega

theorem numberToStringNat_small (m : Nat) (h : m < 10 ^ 21) :
    numberToStringNat m = natDigits m := by
  show (if (natDigits m).length ≤ 21 then natDigits m else _) = natDigits m
  rw [if_pos (natDigits_length_le m 21 (by norm_num) h)]

theorem dropWhile_ws_minus (l : JSStr) :
    ('-' :: l).dropWhile Char.isWhitespace = '-' :: l := by
  have hw : ('-').isWhitespace = false := by decide
  rw [List.dropWhile_cons, hw]
  simp

theorem parseIntJS_numberToString (n : Int) (h1 : -(10 ^ 21) < n) (h2 : n < 10 ^ 21) :
    parseIntJS (numberToString n) = some n := by
  have hlit : (10 : Int) ^ 21 = 1000000000000000000000 := by norm_num
  have hlitn : (10 : Nat) ^ 21 = 1000000000000000000000 := by norm_num
  have hdig : ∀ m : Nat, ∀ c ∈ natDigits m, isDig c = true := by
    intro m c hc
    have := natDigits_all_isDig m
    rw [List.all_eq_true] at this
    exact this c hc
  unfold numberToString
  by_cases hn : n < 0
  · rw [if_pos hn, numberToStringNat_small n.natAbs (by rw [hlitn]; omega)]
    unfold parseIntJS
    rw [dropWhile_ws_minus (natDigits n.natAbs)]
    show (if (natDigits n.natAbs).takeWhile isDig = [] then none
      else some (-((parseDec ((natDigits n.natAbs).takeWhile isDig) : Nat) : Int))) = some n
    rw [takeWhile_isDig_self _ (hdig n.natAbs), if_neg (natDigits_ne_nil _),
      parseDec_natDigits]
    congr 1
    omega
  · rw [if_neg hn, numberToStringNat_small n.toNat (by rw [hlitn]; omega)]
    rw [parseIntJS_digits _ (natDigits_ne_nil _) (hdig n.toNat), parseDec_natDigits]
    congr 1
    omega

/-- Counterexample for C7 as stated: `parseInt` converts a number argument to
a string first, `ToString` of the integer `10^21` is the exponential
`"1e+21"`, and `parseInt` stops at `'e'` and returns 1 — so
`esNumeroHostsValido` accepts an integer far above 16777214. -/
theorem esNumeroHostsValido_counterexample :
    esNumeroHostsValido (10 ^ 21) = true ∧ ¬ ((10 ^ 21 : Int) ≤ 16777214) := by
  constructor
  · decide
  · decide

/-- C7 (amended): for every integer host count of magnitude below `10^21` —
the range on which `ToString` uses positional notation, so the source's
`parseInt(hosts)` re-parse reads the value back exactly —
`esNumeroHostsValido` accepts exactly the integers `1 ≤ h ≤ 16777214`. -/
theorem esNumeroHostsValido_amended (h : Int)
    (hb1 : -(10 ^ 21) < h) (hb2 : h < 10 ^ 21) :
    esNumeroHostsValido h = true ↔ 1 ≤ h ∧ h ≤ 16777214 := by
  unfold esNumeroHostsValido
  rw [parseIntJS_numberToString h hb1 hb2]
  show (if h < 1 then false else if h > 16777214 then false else true) = true ↔ _
  constructor
  · intro hv
    split at hv
    · exact absurd hv (by simp)
    · split at hv
      · exact absurd hv (by simp)
      · omega
  · intro hc
    rw [if_neg (by omega), if_neg (by omega)]

/-- Witness for C7: 16777215 lies in the amended range, the amended iff
applies to it, and the validator indeed rejects it (scenario 4). -/
theorem esNumeroHostsValido_amended_witness :
    (-(10 ^ 21) < (16777215 : Int) ∧ (16777215 : Int) < 10 ^ 21) ∧
      (esNumeroHostsValido 16777215 = true ↔
        1 ≤ (16777215 : Int) ∧ (16777215 : Int) ≤ 16777214) ∧
      esNumeroHostsValido 16777215 = false :=
  ⟨⟨by decide, by decide⟩,
    esNumeroHostsValido_amended 16777215 (by decide) (by decide), by decide⟩

/-! ## Claim C2 -/

/-- Counterexample for C2 as stated: the validator accepts `01.0.0.1` (the
octet regex admits leading zeros), but the string-integer-string round trip
returns the canonical spelling `1.0.0.1`, not the original string. -/
theorem ipRoundTrip_counterexample :
    esDireccionIPValida (str "01.0.0.1") = true ∧
      numeroAIp (ipANumero (str "01.0.0.1")) ≠ str "01.0.0.1" := by
  constructor
  · decide
  · decide

/-- C2 (amended): for every string the validator accepts whose octet groups
carry no leading zeros, the round trip through `ipANumero` and `numeroAIp` is
the identity. -/
theorem ipRoundTrip_amended (s : JSStr) (h : esDireccionIPValida s = true)
    (hc : ∀ p ∈ splitDot s, sinCerosIniciales p = true) :
    numeroAIp (ipANumero s) = s := by
  obtain ⟨p0, p1, p2, p3, hsp, hm0, hm1, hm2, hm3, hval, hip, _, _⟩ :=
    esDireccionIPValida_destruct s h
  have hb0 := (matchesOctet_facts p0 hm0).2.2.1
  have hb1 := (matchesOctet_facts p1 hm1).2.2.1
  have hb2 := (matchesOctet_facts p2 hm2).2.2.1
  have hb3 := (matchesOctet_facts p3 hm3).2.2.1
  rw [hip, numeroAIp_bytes]
  rw [toUint32_toInt32, toUint32_ofNat _ (by rw [nat_two_pow_32]; omega)]
  rw [show (parseDec p0 * 16777216 + parseDec p1 * 65536 + parseDec p2 * 256 + parseDec p3) /
      16777216 = parseDec p0 from by omega]
  rw [show (parseDec p0 * 16777216 + parseDec p1 * 65536 + parseDec p2 * 256 + parseDec p3) /
      65536 % 256 = parseDec p1 from by omega]
  rw [show (parseDec p0 * 16777216 + parseDec p1 * 65536 + parseDec p2 * 256 + parseDec p3) /
      256 % 256 = parseDec p2 from by omega]
  rw [show (parseDec p0 * 16777216 + parseDec p1 * 65536 + parseDec p2 * 256 + parseDec p3) %
      256 = parseDec p3 from by omega]
  rw [natDigits_parseDec p0 (matchesOctet_facts p0 hm0).1 (matchesOctet_facts p0 hm0).2.1
      (hc p0 (by rw [hsp]; simp)),
    natDigits_parseDec p1 (matchesOctet_facts p1 hm1).1 (matchesOctet_facts p1 hm1).2.1
      (hc p1 (by rw [hsp]; simp)),
    natDigits_parseDec p2 (matchesOctet_facts p2 hm2).1 (matchesOctet_facts p2 hm2).2.1
      (hc p2 (by rw [hsp]; simp)),
    natDigits_parseDec p3 (matchesOctet_facts p3 hm3).1 (matchesOctet_facts p3 hm3).2.1
      (hc p3 (by rw [hsp]; simp))]
  rw [← hsp]
  exact joinDot_splitDot s

/-- Witness for C2 (amended) at `10.0.0.50`. -/
theorem ipRoundTrip_amended_witness :
    esDireccionIPValida (str "10.0.0.50") = true ∧
      (∀ p ∈ splitDot (str "10.0.0.50"), sinCerosIniciales p = true) ∧
      numeroAIp (ipANumero (str "10.0.0.50")) = str "10.0.0.50" :=
  ⟨by decide, by decide, ipRoundTrip_amended (str "10.0.0.50") (by decide) (by decide)⟩

/-! ## Ceiling base-2 logarithm facts -/

theorem clog2Aux_congr : ∀ f1 f2 n : Nat, n ≤ f1 → n ≤ f2 →
    clog2Aux f1 n = clog2Aux f2 n := by
  intro f1
  induction f1 with
  | zero =>
    intro f2 n h1 h2
    have hn : n = 0 := by omega
    subst hn
    cases f2 with
    | zero => rfl
    | succ g => simp [clog2Aux]
  | succ f ih =>
    intro f2 n h1 h2
    cases f2 with
    | zero =>
      have hn : n = 0 := by omega
      subst hn
      simp [clog2Aux]
    | succ g =>
      simp only [clog2Aux]
      by_cases hn : n ≤ 1
      · simp [hn]
      · rw [if_neg hn, if_neg hn, ih g ((n + 1) / 2) (by omega) (by omega)]

theorem clog2_eq (n : Nat) : clog2 n = if n ≤ 1 then 0 else clog2 ((n + 1) / 2) + 1 := by
  cases n with
  | zero => rfl
  | succ m =>
    show clog2Aux (m + 1) (m + 1) = _
    simp only [clog2Aux]
    by_cases hn : m + 1 ≤ 1
    · simp [hn]
    · rw [if_neg hn, if_neg hn,
        clog2Aux_congr m ((m + 1 + 1) / 2) ((m + 1 + 1) / 2) (by omega) (by omega)]
      rfl

theorem clog2_eq_clog (n : Nat) : clog2 n = Nat.clog 2 n := by
  induction n using Nat.strong_induction_on with
  | _ n ih =>
    rw [clog2_eq]
    by_cases hn : n ≤ 1
    · rw [if_pos hn, Nat.clog_of_right_le_one hn]
    · rw [if_neg hn, Nat.clog_of_two_le (by norm_num) (by omega),
        show (n + 2 - 1) / 2 = (n + 1) / 2 from by omega, ih ((n + 1) / 2) (by omega)]

theorem le_two_pow_clog2 (n : Nat) : n ≤ 2 ^ clog2 n := by
  rw [clog2_eq_clog]
  exact (Nat.le_pow_iff_clog_le (by norm_num)).mpr le_rfl

theorem clog2_le_of_le_pow (n k : Nat) (h : n ≤ 2 ^ k) : clog2 n ≤ k := by
  rw [clog2_eq_clog]
  exact (Nat.le_pow_iff_clog_le (by norm_num)).mp h

theorem lt_clog2_of_pow_lt (k n : Nat) (h : 2 ^ k < n) : k < clog2 n := by
  rw [clog2_eq_clog]
  exact (Nat.pow_lt_iff_lt_clog (by norm_num)).mp h

/-! ## Bit-level helpers for subnet alignment -/

theorem canonical_mask_factor (p : Nat) (hp : p ≤ 32) :
    4294967296 - 2 ^ (32 - p) = (2 ^ p - 1) * 2 ^ (32 - p) := by
  have e1 : (2 ^ p - 1) * 2 ^ (32 - p) = 2 ^ p * 2 ^ (32 - p) - 2 ^ (32 - p) := by
    rw [Nat.sub_mul, one_mul]
  have e2 : (2 : Nat) ^ p * 2 ^ (32 - p) = 4294967296 := by
    rw [← pow_add, show p + (32 - p) = 32 from by omega]
    norm_num
  have hX := Nat.two_pow_pos (32 - p)
  omega

theorem testBit_canonical_mask_low (p i : Nat) (hp : p ≤ 32) (hi : i < 32 - p) :
    Nat.testBit (4294967296 - 2 ^ (32 - p)) i = false := by
  rw [canonical_mask_factor p hp,
    show (2 ^ p - 1) * 2 ^ (32 - p) = (2 ^ p - 1) <<< (32 - p) from by rw [Nat.shiftLeft_eq],
    Nat.testBit_shiftLeft]
  simp [Nat.not_le.mpr hi]

theorem land_low_bits (x m j : Nat) (hm : ∀ i, i < j → Nat.testBit m i = false) :
    ∀ i, i < j → Nat.testBit (Nat.land x m) i = false := by
  intro i hi
  show Nat.testBit (x &&& m) i = false
  rw [Nat.testBit_land, hm i hi, Bool.and_false]

theorem dvd_of_low_bits_zero (x j : Nat) (h : ∀ i, i < j → Nat.testBit x i = false) :
    2 ^ j ∣ x := by
  have hmod : x % 2 ^ j = 0 := by
    apply Nat.eq_of_testBit_eq
    intro i
    rw [Nat.testBit_mod_two_pow, Nat.zero_testBit]
    by_cases hij : i < j
    · simp [h i hij]
    · simp [hij]
  exact Nat.dvd_of_mod_eq_zero hmod

theorem land_aligned (y q a : Nat) (hy : y < 2 ^ q) :
    Nat.land (y * 2 ^ a) ((2 ^ q - 1) * 2 ^ a) = y * 2 ^ a := by
  show (y * 2 ^ a) &&& ((2 ^ q - 1) * 2 ^ a) = y * 2 ^ a
  apply Nat.eq_of_testBit_eq
  intro i
  rw [Nat.testBit_land,
    show y * 2 ^ a = y <<< a from by rw [Nat.shiftLeft_eq],
    show (2 ^ q - 1) * 2 ^ a = (2 ^ q - 1) <<< a from by rw [Nat.shiftLeft_eq],
    Nat.testBit_shiftLeft, Nat.testBit_shiftLeft]
  by_cases hia : a ≤ i
  · rw [decide_eq_true (show i ≥ a from hia)]
    simp only [Bool.true_and]
    rw [Nat.testBit_two_pow_sub_one]
    by_cases hlt : i - a < q
    · simp [hlt]
    · have hfb : Nat.testBit y (i - a) = false :=
        Nat.testBit_lt_two_pow (lt_of_lt_of_le hy (Nat.pow_le_pow_right (by norm_num) (by omega)))
      simp [hlt, hfb]
  · simp [hia]

/-! ## Dotted strings of canonical mask values -/

theorem numeroAIp_of_bytes (v : Nat) (hv : v < 2 ^ 32) :
    numeroAIp ((v : Nat) : Int) = joinDot (([v / 16777216, v / 65536 % 256, v / 256 % 256,
      v % 256]).map fun o => jsNumToStr ((o : Nat) : Int)) := by
  rw [numeroAIp_bytes, toUint32_ofNat v hv]
  simp [jsNumToStr_ofNat]

theorem calcularCIDR_numeroAIp (v p : Nat) (hp : p ≤ 32) (hv : v = 4294967296 - 2 ^ (32 - p)) :
    calcularCIDR (numeroAIp ((v : Nat) : Int)) = p := by
  have hvlt : v < 2 ^ 32 := by
    rw [nat_two_pow_32]
    have := Nat.two_pow_pos (32 - p)
    omega
  rw [numeroAIp_bytes, toUint32_ofNat v hvlt]
  unfold calcularCIDR maskBinaria
  rw [splitDot_joinDot4 _ _ _ _ (natDigits_dotfree _) (natDigits_dotfree _) (natDigits_dotfree _)
    (natDigits_dotfree _)]
  simp only [List.map_cons, List.map_nil, jsNumber_natDigits, Int.toNat_natCast,
    List.flatten_cons, List.flatten_nil, List.append_nil]
  subst hv
  exact canonical_mask_ones p (by omega)

/-! ## Claim C10 -/

theorem numeroAIp_ne_nil (x : Int) : numeroAIp x ≠ [] := by
  rw [numeroAIp_bytes,
    show joinDot [natDigits (toUint32 x / 16777216), natDigits (toUint32 x / 65536 % 256),
      natDigits (toUint32 x / 256 % 256), natDigits (toUint32 x % 256)] =
      natDigits (toUint32 x / 16777216) ++ '.' :: (natDigits (toUint32 x / 65536 % 256) ++ '.' ::
        (natDigits (toUint32 x / 256 % 256) ++ '.' :: natDigits (toUint32 x % 256))) from rfl]
  simp

theorem valid_ne_nil (s : JSStr) (h : esDireccionIPValida s = true) : s ≠ [] := by
  intro hEq
  subst hEq
  exact absurd h (by decide)

/-- C10: every mask the validator accepts has between 1 and 31 one-bits (the
all-zeros and all-ones masks fail the IPv4 check first), so
`calcularHostsDesdeMascara` is nonnegative on validated masks and every
result built from validated input passes `esValido` -- the negative-host
`/32` edge case is unreachable through the validated interface. -/
theorem mascaraValida_interfaz_segura (mascara : JSStr)
    (hm : esMascaraSubredValida mascara = true) :
    (1 ≤ calcularCIDR mascara ∧ calcularCIDR mascara ≤ 31) ∧
      0 ≤ calcularHostsDesdeMascara mascara ∧
      ∀ ip, esDireccionIPValida ip = true →
        (calcularSubredCompleta ip mascara).esValido = true := by
  obtain ⟨hvm, p, hp1, hp31, hmv, hcidr⟩ := esMascaraSubredValida_destruct mascara hm
  obtain ⟨q0, q1, q2, q3, hsp, hq0, hq1, hq2, hq3, _⟩ := esDireccionIPValida_destruct mascara hvm
  have hosts_eq := hosts_formula mascara q0 q1 q2 q3 hsp hq0 hq1 hq2 hq3
  have hbound : (2 : Int) ≤ 2 ^ (32 - calcularCIDR mascara) := by
    calc (2 : Int) = 2 ^ 1 := by norm_num
    _ ≤ 2 ^ (32 - calcularCIDR mascara) := pow_le_pow_right (by norm_num) (by omega)
  refine ⟨⟨by omega, by omega⟩, by rw [hosts_eq]; omega, ?_⟩
  intro ip hip
  have hne1 : (calcularSubredCompleta ip mascara).networkIP ≠ [] := numeroAIp_ne_nil _
  have hne2 : (calcularSubredCompleta ip mascara).subnetMask ≠ [] := valid_ne_nil mascara hvm
  have hne3 : (calcularSubredCompleta ip mascara).broadcastIP ≠ [] := numeroAIp_ne_nil _
  have hne4 : (calcularSubredCompleta ip mascara).firstHostIP ≠ [] := numeroAIp_ne_nil _
  have hne5 : (calcularSubredCompleta ip mascara).lastHostIP ≠ [] := numeroAIp_ne_nil _
  have hne6 : (calcularSubredCompleta ip mascara).gatewayIP ≠ [] := numeroAIp_ne_nil _
  have hth : 0 ≤ (calcularSubredCompleta ip mascara).totalHosts := by
    show 0 ≤ calcularHostsDesdeMascara mascara
    rw [hosts_eq]
    omega
  unfold ResultadoIp.esValido
  simp [hne1, hne2, hne3, hne4, hne5, hne6, hth]

/-- Witness for C10 at mask `255.255.255.0` and ip `10.0.0.50`. -/
theorem mascaraValida_interfaz_segura_witness :
    esMascaraSubredValida (str "255.255.255.0") = true ∧
      (1 ≤ calcularCIDR (str "255.255.255.0") ∧ calcularCIDR (str "255.255.255.0") ≤ 31) ∧
      0 ≤ calcularHostsDesdeMascara (str "255.255.255.0") ∧
      esDireccionIPValida (str "10.0.0.50") = true ∧
      (calcularSubredCompleta (str "10.0.0.50") (str "255.255.255.0")).esValido = true :=
  ⟨by decide,
    (mascaraValida_interfaz_segura (str "255.255.255.0") (by decide)).1,
    (mascaraValida_interfaz_segura (str "255.255.255.0") (by decide)).2.1,
    by decide,
    (mascaraValida_interfaz_segura (str "255.255.255.0") (by decide)).2.2 (str "10.0.0.50")
      (by decide)⟩

/-! ## Claim C3 -/

/-- C3: for every host count in the validated range, the mask produced by
`calcularMascaraDesdeHosts` is the dotted form of the canonical value with
`32 - ceil(log2(hosts + 2))` one bits followed by `ceil(log2(hosts + 2))`
zero bits. -/
theorem calcularMascaraDesdeHosts_spec (h : Nat) (h1 : 1 ≤ h) (h2 : h ≤ 16777214) :
    calcularMascaraDesdeHosts h = numeroAIp ((2 ^ 32 - 2 ^ clog2 (h + 2) : Nat) : Int) ∧
      calcularCIDR (calcularMascaraDesdeHosts h) = 32 - clog2 (h + 2) := by
  have hb2 : 2 ≤ clog2 (h + 2) := by
    have := lt_clog2_of_pow_lt 1 (h + 2) (by omega)
    omega
  have hb24 : clog2 (h + 2) ≤ 24 := clog2_le_of_le_pow (h + 2) 24 (by norm_num; omega)
  have e32 : 32 - (32 - clog2 (h + 2)) = clog2 (h + 2) := by omega
  have hvlt : (2 ^ 32 - 2 ^ clog2 (h + 2) : Nat) < 2 ^ 32 := by
    have hc := Nat.two_pow_pos (clog2 (h + 2))
    have h32 := Nat.two_pow_pos 32
    omega
  have hmain : calcularMascaraDesdeHosts h =
      numeroAIp ((2 ^ 32 - 2 ^ clog2 (h + 2) : Nat) : Int) := by
    simp only [calcularMascaraDesdeHosts]
    rw [show repeatChar '0' (clog2 (h + 2)) =
      repeatChar '0' (32 - (32 - clog2 (h + 2))) from by rw [e32]]
    rw [mask_build_octets (32 - clog2 (h + 2)) (by omega)]
    rw [numeroAIp_of_bytes _ hvlt]
    rw [e32, nat_two_pow_32]
  exact ⟨hmain, by
    rw [hmain]
    exact calcularCIDR_numeroAIp _ _ (by omega) (by rw [e32, nat_two_pow_32])⟩

/-- Witness for C3: scenario 1 of the specification (`192.168.1.100` with 50
hosts gives mask `255.255.255.192` and 62 usable hosts). -/
theorem calcularMascaraDesdeHosts_spec_witness :
    (1 ≤ 50 ∧ 50 ≤ 16777214) ∧
      (calcularMascaraDesdeHosts 50 = numeroAIp ((2 ^ 32 - 2 ^ clog2 (50 + 2) : Nat) : Int) ∧
        calcularCIDR (calcularMascaraDesdeHosts 50) = 32 - clog2 (50 + 2)) ∧
      calcularMascaraDesdeHosts 50 = str "255.255.255.192" ∧
      (calcularSubredPorHosts (str "192.168.1.100") 50).networkIP = str "192.168.1.64" ∧
      (calcularSubredPorHosts (str "192.168.1.100") 50).broadcastIP = str "192.168.1.127" ∧
      (calcularSubredPorHosts (str "192.168.1.100") 50).firstHostIP = str "192.168.1.65" ∧
      (calcularSubredPorHosts (str "192.168.1.100") 50).lastHostIP = str "192.168.1.126" ∧
      (calcularSubredPorHosts (str "192.168.1.100") 50).gatewayIP = str "192.168.1.65" ∧
      (calcularSubredPorHosts (str "192.168.1.100") 50).totalHosts = 62 :=
  ⟨⟨by norm_num, by norm_num⟩,
    calcularMascaraDesdeHosts_spec 50 (by norm_num) (by norm_num),
    by decide, by decide, by decide, by decide, by decide, by decide, by decide⟩

/-! ## Claim C4 -/

theorem dividirEnSubredes_eq (ip mascara : JSStr) (n : Nat) :
    dividirEnSubredes ip mascara n =
      if (obtenerInfoAdicional mascara).bitsRed + clog2 n > 30 then
        Except.error (str "No es posible crear tantas subredes con hosts válidos")
      else
        Except.ok ((List.range n).map fun (i : Nat) =>
          calcularSubredCompleta
            (numeroAIp (ipANumero (calcularIpRed ip mascara) +
              (i : Int) * 2 ^ (32 - ((obtenerInfoAdicional mascara).bitsRed + clog2 n))))
            (joinDot ((((List.range 4).map fun j => parseBin (substrJS
              (repeatChar '1' ((obtenerInfoAdicional mascara).bitsRed + clog2 n) ++
                repeatChar '0' (32 - ((obtenerInfoAdicional mascara).bitsRed + clog2 n)))
              (j * 8) 8))).map fun o => jsNumToStr ((o : Nat) : Int)))) := rfl

set_option maxHeartbeats 1000000 in
/-- C4: `dividirEnSubredes` fails with the capacity error exactly when the
current prefix length plus `ceil(log2 n)` exceeds 30; otherwise it returns
exactly `n` results whose network addresses start at the base network address
and advance in contiguous steps of `2 ^ (32 - newPrefix)`. -/
theorem dividirEnSubredes_spec (ip mascara : JSStr) (n : Nat)
    (hip : esDireccionIPValida ip = true) (hm : esMascaraSubredValida mascara = true)
    (hn : 1 ≤ n) :
    ((∃ e, dividirEnSubredes ip mascara n = Except.error e) ↔
      30 < calcularCIDR mascara + clog2 n) ∧
    ∀ l, dividirEnSubredes ip mascara n = Except.ok l →
      l.length = n ∧
      ∀ i, ∀ hi : i < l.length,
        calcularCIDR ((l.get ⟨i, hi⟩).subnetMask) = calcularCIDR mascara + clog2 n ∧
        toUint32 (ipANumero ((l.get ⟨i, hi⟩).networkIP)) =
          Nat.land (toUint32 (ipANumero ip)) (toUint32 (ipANumero mascara)) +
            i * 2 ^ (32 - (calcularCIDR mascara + clog2 n)) := by
  obtain ⟨hvm, p, hp1, hp31, hmv, hcidr⟩ := esMascaraSubredValida_destruct mascara hm
  rw [dividirEnSubredes_eq,
    show (obtenerInfoAdicional mascara).bitsRed = calcularCIDR mascara from rfl, hcidr]
  by_cases hcap : 30 < p + clog2 n
  · rw [if_pos hcap]
    refine ⟨⟨fun _ => hcap, fun _ => ⟨_, rfl⟩⟩, ?_⟩
    intro l hl
    simp at hl
  · rw [if_neg hcap]
    push_neg at hcap
    refine ⟨⟨?_, ?_⟩, ?_⟩
    · rintro ⟨e, he⟩
      simp at he
    · intro hgt
      exact absurd hgt (by omega)
    · intro l hl
      rw [Except.ok.injEq] at hl
      subst hl
      refine ⟨by rw [List.length_map, List.length_range], ?_⟩
      intro i hi
      simp only [List.length_map, List.length_range] at hi
      rw [List.get_eq_getElem]
      simp only [List.getElem_map, List.getElem_range]
      set a := 32 - (p + clog2 n) with ha
      have hnewv_lt : (4294967296 - 2 ^ a) < 2 ^ 32 := by
        rw [nat_two_pow_32]
        have := Nat.two_pow_pos a
        omega
      have hms : joinDot ((((List.range 4).map fun j => parseBin (substrJS
          (repeatChar '1' (p + clog2 n) ++ repeatChar '0' a) (j * 8) 8))).map
          fun o => jsNumToStr ((o : Nat) : Int)) =
          numeroAIp ((4294967296 - 2 ^ a : Nat) : Int) := by
        rw [ha, mask_build_octets (p + clog2 n) (by omega)]
        exact (numeroAIp_of_bytes _ (by rw [← ha]; exact hnewv_lt)).symm
      rw [hms]
      refine ⟨?_, ?_⟩
      · show calcularCIDR (numeroAIp ((4294967296 - 2 ^ a : Nat) : Int)) = p + clog2 n
        exact calcularCIDR_numeroAIp _ (p + clog2 n) (by omega) (by rw [ha])
      rw [show ∀ S M : JSStr, (calcularSubredCompleta S M).networkIP =
        numeroAIp (jsAnd (ipANumero S) (ipANumero M)) from fun S M => rfl]
      rw [toUint32_roundtrip, toUint32_jsAnd]
      have hmsv : toUint32 (ipANumero (numeroAIp ((4294967296 - 2 ^ a : Nat) : Int))) =
          4294967296 - 2 ^ a := by
        rw [toUint32_roundtrip, toUint32_ofNat _ hnewv_lt]
      rw [hmsv]
      have hred : ipANumero (calcularIpRed ip mascara) =
          toInt32 ((Nat.land (toUint32 (ipANumero ip)) (toUint32 (ipANumero mascara)) : Nat) :
            Int) := by
        unfold calcularIpRed
        rw [ipANumero_numeroAIp, toUint32_jsAnd]
      rw [hred]
      have hcast : ((i : Nat) : Int) * (2 : Int) ^ a = ((i * 2 ^ a : Nat) : Int) := by
        push_cast
        ring
      rw [hcast]
      set bv := Nat.land (toUint32 (ipANumero ip)) (toUint32 (ipANumero mascara)) with hbvdef
      have hbv_le : bv ≤ 4294967296 - 2 ^ (32 - p) := by
        have h1 : bv ≤ toUint32 (ipANumero mascara) := Nat.and_le_right
        omega
      have hCA : 2 ^ clog2 n * 2 ^ a = 2 ^ (32 - p) := by
        rw [← pow_add]
        congr 1
        omega
      have hQA : 2 ^ (p + clog2 n) * 2 ^ a = 4294967296 := by
        rw [← pow_add, show p + clog2 n + a = 32 from by omega]
        norm_num
      have hdvd : 2 ^ a ∣ bv := by
        apply dvd_of_low_bits_zero bv a
        intro j hj
        rw [hbvdef]
        apply land_low_bits _ _ a
        · intro k hk
          rw [hmv]
          exact testBit_canonical_mask_low p k (by omega) (by omega)
        · exact hj
      obtain ⟨z, hz⟩ := hdvd
      have hz' : z * 2 ^ a = bv := by rw [hz, Nat.mul_comm]
      have hn2c : n ≤ 2 ^ clog2 n := le_two_pow_clog2 n
      have hi2 : i * 2 ^ a ≤ (2 ^ clog2 n - 1) * 2 ^ a :=
        Nat.mul_le_mul_right _ (by omega)
      have hsubm : (2 ^ clog2 n - 1) * 2 ^ a = 2 ^ clog2 n * 2 ^ a - 2 ^ a := by
        rw [Nat.sub_mul, one_mul]
      have hApos := Nat.two_pow_pos a
      have hXpos32 := Nat.two_pow_pos (32 - p)
      have hi2' : i * 2 ^ a ≤ 2 ^ (32 - p) - 2 ^ a := by
        calc i * 2 ^ a ≤ (2 ^ clog2 n - 1) * 2 ^ a := hi2
          _ = 2 ^ clog2 n * 2 ^ a - 2 ^ a := hsubm
          _ = 2 ^ (32 - p) - 2 ^ a := by rw [hCA]
      have h32le : 2 ^ (32 - p) ≤ 4294967296 := by
        calc 2 ^ (32 - p) ≤ 2 ^ 32 := Nat.pow_le_pow_right (by norm_num) (by omega)
          _ = 4294967296 := by norm_num
      have hX_lt : bv + i * 2 ^ a < 4294967296 := by omega
      have hsubval : toUint32 (toInt32 ((bv : Nat) : Int) + ((i * 2 ^ a : Nat) : Int)) =
          bv + i * 2 ^ a := by
        have hh := toUint32_toInt32_add bv ((i * 2 ^ a : Nat) : Int)
          (by rw [nat_two_pow_32]; omega) (by positivity)
          (by rw [int_two_pow_32]; exact_mod_cast hX_lt)
        omega
      rw [toUint32_roundtrip, hsubval]
      have hzi : z + i < 2 ^ (p + clog2 n) := by
        by_contra hcon
        push_neg at hcon
        have hge : 2 ^ (p + clog2 n) * 2 ^ a ≤ (z + i) * 2 ^ a :=
          Nat.mul_le_mul_right _ hcon
        have heq : (z + i) * 2 ^ a = bv + i * 2 ^ a := by rw [Nat.add_mul, hz']
        omega
      have e1 : bv + i * 2 ^ a = (z + i) * 2 ^ a := by rw [Nat.add_mul, hz']
      have e2 : (4294967296 - 2 ^ a : Nat) = (2 ^ (p + clog2 n) - 1) * 2 ^ a := by
        rw [ha]
        exact canonical_mask_factor (p + clog2 n) (by omega)
      rw [e1, e2]
      exact land_aligned (z + i) (p + clog2 n) a hzi

/-- Witness for C4: scenario 6 of the specification (splitting `192.168.1.0`
with mask `255.255.255.0` into 8 subnets gives /27 blocks `192.168.1.0`,
`.32`, ..., `.224`, each with mask `255.255.255.224`). -/
theorem dividirEnSubredes_spec_witness :
    (esDireccionIPValida (str "192.168.1.0") = true ∧
      esMascaraSubredValida (str "255.255.255.0") = true ∧ 1 ≤ 8) ∧
    Except.map (List.map fun r => (r.networkIP, r.subnetMask))
        (dividirEnSubredes (str "192.168.1.0") (str "255.255.255.0") 8) =
      Except.ok ([str "192.168.1.0", str "192.168.1.32", str "192.168.1.64",
        str "192.168.1.96", str "192.168.1.128", str "192.168.1.160",
        str "192.168.1.192", str "192.168.1.224"].map
          fun s => (s, str "255.255.255.224")) ∧
    (((∃ e, dividirEnSubredes (str "192.168.1.0") (str "255.255.255.0") 8 = Except.error e) ↔
        30 < calcularCIDR (str "255.255.255.0") + clog2 8) ∧
      ∀ l, dividirEnSubredes (str "192.168.1.0") (str "255.255.255.0") 8 = Except.ok l →
        l.length = 8 ∧
        ∀ i, ∀ hi : i < l.length,
          calcularCIDR ((l.get ⟨i, hi⟩).subnetMask) =
            calcularCIDR (str "255.255.255.0") + clog2 8 ∧
          toUint32 (ipANumero ((l.get ⟨i, hi⟩).networkIP)) =
            Nat.land (toUint32 (ipANumero (str "192.168.1.0")))
              (toUint32 (ipANumero (str "255.255.255.0"))) +
              i * 2 ^ (32 - (calcularCIDR (str "255.255.255.0") + clog2 8))) :=
  ⟨⟨by decide, by decide, by decide⟩, by rfl,
    dividirEnSubredes_spec _ _ 8 (by decide) (by decide) (by decide)⟩

/-! ## Claim C9 -/

theorem calcularMascaraDesdeHostsChecked_ok (hosts : Nat) (h : hosts ≤ 4294967294) :
    calcularMascaraDesdeHostsChecked hosts = Except.ok (calcularMascaraDesdeHosts hosts) := by
  have hc : clog2 (hosts + 2) ≤ 32 := clog2_le_of_le_pow _ 32 (by rw [nat_two_pow_32]; omega)
  show (if (32 : Int) - (clog2 (hosts + 2) : Int) < 0 then _ else _) = _
  rw [if_neg (by
    have hci : ((clog2 (hosts + 2) : Nat) : Int) ≤ 32 := by exact_mod_cast hc
    omega)]

theorem optimizarAux_ok (l : List (Nat × Nat)) (hb : ∀ p ∈ l, p.2 ≤ 4294967294) :
    optimizarAux l = Except.ok (l.map fun par =>
      ({ indice := par.1
         hostsRequeridos := par.2
         hostsDisponibles := calcularHostsDesdeMascara (calcularMascaraDesdeHosts par.2)
         mascara := calcularMascaraDesdeHosts par.2
         notacionCIDR := (obtenerInfoAdicional (calcularMascaraDesdeHosts par.2)).notacionCIDR
         eficiencia := (par.2 : Rat) /
           (calcularHostsDesdeMascara (calcularMascaraDesdeHosts par.2) : Rat) * 100 } :
        SubredOptimizada)) := by
  induction l with
  | nil => rfl
  | cons p t ih =>
    have hchk := calcularMascaraDesdeHostsChecked_ok p.2 (hb p (List.mem_cons_self p t))
    have hih := ih fun q hq => hb q (List.mem_cons_of_mem p hq)
    rw [List.map_cons]
    show (match calcularMascaraDesdeHostsChecked p.2 with
      | Except.error e => Except.error e
      | Except.ok mascara =>
        match optimizarAux t with
        | Except.error e => Except.error e
        | Except.ok subredes =>
          Except.ok
            ({ indice := p.1
               hostsRequeridos := p.2
               hostsDisponibles := calcularHostsDesdeMascara mascara
               mascara := mascara
               notacionCIDR := (obtenerInfoAdicional mascara).notacionCIDR
               eficiencia := (p.2 : Rat) / (calcularHostsDesdeMascara mascara : Rat) * 100 }
              :: subredes) : Except JSStr (List SubredOptimizada)) = _
    rw [hchk, hih]

/-- Counterexample for C9 as stated: for the single requirement 4294967296
the source computes `bitsHost = 33`, so `'1'.repeat(32 - 33)` throws
`RangeError` inside the `forEach` and `optimizarSubredes` returns no list at
all, of any length. -/
theorem optimizarSubredes_counterexample :
    optimizarSubredes [4294967296] = Except.error (str "Invalid count value") ∧
      ∀ out, optimizarSubredes [4294967296] ≠ Except.ok out := by
  have he : optimizarSubredes [4294967296] = Except.error (str "Invalid count value") := by
    rfl
  exact ⟨he, fun out hout => by rw [he] at hout; exact Except.noConfusion hout⟩

set_option maxHeartbeats 1000000 in
/-- C9 (amended): on requirement lists whose entries stay at or below
4294967294 — so that no `calcularMascaraDesdeHosts` call throws —
`optimizarSubredes` returns one entry per requirement, listing the
requirements in descending order (a permutation of the input, sorted by
`≥`); every entry carries its position as `indice`, the mask
`calcularMascaraDesdeHosts` derives for its requirement, the available host
count of that mask, its CIDR prefix, and efficiency = required / available
as a percentage.  Sorting a list of plain numbers is insensitive to
stability: entries with equal requirements are identical records except for
`indice`, which numbers positions consecutively either way. -/
theorem optimizarSubredes_amended (listaHosts : List Nat)
    (hb : ∀ h ∈ listaHosts, h ≤ 4294967294) :
    ∃ out, optimizarSubredes listaHosts = Except.ok out ∧
      out.length = listaHosts.length ∧
      List.Perm (out.map fun r => r.hostsRequeridos) listaHosts ∧
      List.Sorted (fun a b => a ≥ b) (out.map fun r => r.hostsRequeridos) ∧
      ∀ i, ∀ hi : i < out.length,
        (out.get ⟨i, hi⟩).indice = i ∧
        (out.get ⟨i, hi⟩).mascara =
          calcularMascaraDesdeHosts ((out.get ⟨i, hi⟩).hostsRequeridos) ∧
        (out.get ⟨i, hi⟩).hostsDisponibles =
          calcularHostsDesdeMascara ((out.get ⟨i, hi⟩).mascara) ∧
        (out.get ⟨i, hi⟩).notacionCIDR = calcularCIDR ((out.get ⟨i, hi⟩).mascara) ∧
        (out.get ⟨i, hi⟩).eficiencia = (((out.get ⟨i, hi⟩).hostsRequeridos : Rat) /
          (((out.get ⟨i, hi⟩).hostsDisponibles : Rat))) * 100 := by
  have hball : ∀ p ∈ (List.insertionSort (fun a b => a ≥ b) listaHosts).enum,
      p.2 ≤ 4294967294 := by
    intro p hp
    have hmem : p.2 ∈ (List.insertionSort (fun a b => a ≥ b) listaHosts).enum.map Prod.snd :=
      List.mem_map_of_mem Prod.snd hp
    rw [List.enum_map_snd] at hmem
    exact hb _ ((List.perm_insertionSort _ listaHosts).mem_iff.mp hmem)
  have hok : optimizarSubredes listaHosts =
      Except.ok ((List.insertionSort (fun a b => a ≥ b) listaHosts).enum.map fun par =>
        ({ indice := par.1
           hostsRequeridos := par.2
           hostsDisponibles := calcularHostsDesdeMascara (calcularMascaraDesdeHosts par.2)
           mascara := calcularMascaraDesdeHosts par.2
           notacionCIDR := (obtenerInfoAdicional (calcularMascaraDesdeHosts par.2)).notacionCIDR
           eficiencia := (par.2 : Rat) /
             (calcularHostsDesdeMascara (calcularMascaraDesdeHosts par.2) : Rat) * 100 } :
          SubredOptimizada)) := optimizarAux_ok _ hball
  have hmap : (((List.insertionSort (fun a b => a ≥ b) listaHosts).enum.map fun par =>
      ({ indice := par.1
         hostsRequeridos := par.2
         hostsDisponibles := calcularHostsDesdeMascara (calcularMascaraDesdeHosts par.2)
         mascara := calcularMascaraDesdeHosts par.2
         notacionCIDR := (obtenerInfoAdicional (calcularMascaraDesdeHosts par.2)).notacionCIDR
         eficiencia := (par.2 : Rat) /
           (calcularHostsDesdeMascara (calcularMascaraDesdeHosts par.2) : Rat) * 100 } :
        SubredOptimizada)).map fun r => r.hostsRequeridos) =
      List.insertionSort (fun a b => a ≥ b) listaHosts := by
    rw [List.map_map]
    have hcomp : ((fun r => SubredOptimizada.hostsRequeridos r) ∘ fun par : Nat × Nat =>
        ({ indice := par.1
           hostsRequeridos := par.2
           hostsDisponibles := calcularHostsDesdeMascara (calcularMascaraDesdeHosts par.2)
           mascara := calcularMascaraDesdeHosts par.2
           notacionCIDR := (obtenerInfoAdicional (calcularMascaraDesdeHosts par.2)).notacionCIDR
           eficiencia := (par.2 : Rat) /
             (calcularHostsDesdeMascara (calcularMascaraDesdeHosts par.2) : Rat) * 100 } :
          SubredOptimizada)) = Prod.snd := by
      funext par
      rfl
    rw [hcomp, List.enum_map_snd]
  refine ⟨_, hok, ?_, ?_, ?_, ?_⟩
  · rw [List.length_map, List.enum_length]
    exact (List.perm_insertionSort _ listaHosts).length_eq
  · rw [hmap]
    exact List.perm_insertionSort _ listaHosts
  · rw [hmap]
    exact List.sorted_insertionSort _ listaHosts
  · intro i hi
    simp only [List.length_map, List.enum_length] at hi
    rw [List.get_eq_getElem]
    refine ⟨?_, ?_, ?_, ?_, ?_⟩ <;>
      simp only [List.getElem_map, List.getElem_enum]
    rfl

/-- Witness for C9: the requirement list `[50, 20, 100]` lies in the amended
range, is reported in descending order `[100, 50, 20]`, and the amended
theorem applies to it. -/
theorem optimizarSubredes_amended_witness :
    (∀ h ∈ [50, 20, 100], h ≤ 4294967294) ∧
    (Except.map (List.map fun r => r.hostsRequeridos)
        (optimizarSubredes [50, 20, 100]) = Except.ok [100, 50, 20]) ∧
    (∃ out, optimizarSubredes [50, 20, 100] = Except.ok out ∧
      out.length = [50, 20, 100].length ∧
      List.Perm (out.map fun r => r.hostsRequeridos) [50, 20, 100] ∧
      List.Sorted (fun a b => a ≥ b) (out.map fun r => r.hostsRequeridos) ∧
      ∀ i, ∀ hi : i < out.length,
        (out.get ⟨i, hi⟩).indice = i ∧
        (out.get ⟨i, hi⟩).mascara =
          calcularMascaraDesdeHosts ((out.get ⟨i, hi⟩).hostsRequeridos) ∧
        (out.get ⟨i, hi⟩).hostsDisponibles =
          calcularHostsDesdeMascara ((out.get ⟨i, hi⟩).mascara) ∧
        (out.get ⟨i, hi⟩).notacionCIDR = calcularCIDR ((out.get ⟨i, hi⟩).mascara) ∧
        (out.get ⟨i, hi⟩).eficiencia = (((out.get ⟨i, hi⟩).hostsRequeridos : Rat) /
          (((out.get ⟨i, hi⟩).hostsDisponibles : Rat))) * 100) :=
  ⟨by decide, by rfl, optimizarSubredes_amended [50, 20, 100] (by decide)⟩


